import Mathlib

/-!
Verification development for `accept-portal-dialog.py` (Deskflow helper script).

The script polls the desktop session: it checks the lock screen, discovers
Portal permission dialog windows (GNOME via `gdbus` shell eval, KDE via
`kdotool`), and replays configured key sequences through `ydotool`.

This file gives a shallow embedding of the script.  Pure helpers
(`decode_eval_json`, `press_keys` argument construction, desktop-variant
resolution) become Lean functions.  Effectful code is embedded as functions
from an environment `Env` — an oracle fixing the outcome of every external
interaction (subprocess results, DBus replies, filesystem checks) — to a pair
of an effect trace and an `Except` outcome, mirroring Python control flow
(normal return, raised exception, `exit`).

Python's `json.loads` is modelled by an executable JSON parser over
`List Char`.  The parser is faithful to the JSON grammar accepted by
`json.loads` with these documented simplifications: numbers may carry leading
zeros, raw control characters are allowed inside string literals, `\uXXXX`
escapes and the `NaN`/`Infinity` literals are not supported, and nesting
depth is bounded by a fuel parameter proportional to input length (the
CPython decoder likewise bounds recursion depth).  Floats are represented
exactly as decimal mantissa/exponent pairs, so no floating-point arithmetic
is involved.
-/

namespace AcceptPortal

/-- JSON values as produced by Python's `json.loads`.  A number literal is
kept as a decimal mantissa `m` and exponent `e` (value `m * 10 ^ e`); integer
literals have `e = 0`.  Objects are association lists in textual order. -/
inductive JVal where
  | null
  | bool (b : Bool)
  | num (m : Int) (e : Int)
  | str (s : String)
  | arr (xs : List JVal)
  | obj (fields : List (String × JVal))

/-- The double-quote character. -/
def quoteChar : Char := Char.ofNat 34
/-- The backslash character. -/
def backslashChar : Char := Char.ofNat 92
/-- Opening square bracket. -/
def lbrackChar : Char := Char.ofNat 91
/-- Closing square bracket. -/
def rbrackChar : Char := Char.ofNat 93
/-- Opening curly brace. -/
def lbraceChar : Char := Char.ofNat 123
/-- Closing curly brace. -/
def rbraceChar : Char := Char.ofNat 125

/-- JSON whitespace (space, tab, newline, carriage return). -/
def isWsChar (c : Char) : Bool :=
  c = ' ' || c = Char.ofNat 9 || c = Char.ofNat 10 || c = Char.ofNat 13

/-- Drop leading JSON whitespace. -/
def skipWs : List Char → List Char
  | [] => []
  | c :: cs => if isWsChar c then skipWs cs else c :: cs

/-- ASCII decimal digit test. -/
def isDigitCh (c : Char) : Bool := 48 ≤ c.toNat && c.toNat ≤ 57

/-- Single-character JSON escape codes. -/
def escChar? (c : Char) : Option Char :=
  if c = quoteChar then some quoteChar
  else if c = backslashChar then some backslashChar
  else if c = '/' then some '/'
  else if c = 'b' then some (Char.ofNat 8)
  else if c = 'f' then some (Char.ofNat 12)
  else if c = 'n' then some (Char.ofNat 10)
  else if c = 'r' then some (Char.ofNat 13)
  else if c = 't' then some (Char.ofNat 9)
  else none

/-- Parse the body of a JSON string literal (the opening quote already
consumed): returns the decoded characters and the input after the closing
quote. -/
def parseStringBody : List Char → Option (List Char × List Char)
  | [] => none
  | c :: cs =>
    if c = quoteChar then some ([], cs)
    else if c = backslashChar then
      match cs with
      | [] => none
      | e :: cs2 =>
        match escChar? e with
        | some ec =>
          match parseStringBody cs2 with
          | some (body, rest) => some (ec :: body, rest)
          | none => none
        | none => none
    else
      match parseStringBody cs with
      | some (body, rest) => some (c :: body, rest)
      | none => none

/-- Take the maximal run of decimal digits. -/
def takeDigits : List Char → List Char × List Char
  | [] => ([], [])
  | c :: cs =>
    if isDigitCh c then
      let p := takeDigits cs
      (c :: p.1, p.2)
    else ([], c :: cs)

/-- Decimal value of a digit run. -/
def digitsVal (l : List Char) : Nat :=
  l.foldl (fun a c => 10 * a + (c.toNat - 48)) 0

/-- Parse an optional fraction part, folding the fraction digits into the
mantissa and counting them. -/
def parseFrac (m : Nat) (r : List Char) : Option (Nat × Nat × List Char) :=
  match r with
  | c :: r1 =>
    if c = '.' then
      match takeDigits r1 with
      | ([], _) => none
      | (d :: ds, r2) => some (m * 10 ^ (d :: ds).length + digitsVal (d :: ds), (d :: ds).length, r2)
    else some (m, 0, c :: r1)
  | [] => some (m, 0, [])

/-- Parse an optional exponent part. -/
def parseExp (r : List Char) : Option (Int × List Char) :=
  match r with
  | c :: r1 =>
    if c = 'e' || c = 'E' then
      match r1 with
      | s :: r2 =>
        if s = '+' then
          match takeDigits r2 with
          | ([], _) => none
          | (d :: ds, r3) => some ((digitsVal (d :: ds) : Int), r3)
        else if s = '-' then
          match takeDigits r2 with
          | ([], _) => none
          | (d :: ds, r3) => some (-(digitsVal (d :: ds) : Int), r3)
        else
          match takeDigits r1 with
          | ([], _) => none
          | (d :: ds, r3) => some ((digitsVal (d :: ds) : Int), r3)
      | [] => none
    else some (0, c :: r1)
  | [] => some (0, [])

/-- Strip an exact word from the front of the input. -/
def stripWord : List Char → List Char → Option (List Char)
  | [], cs => some cs
  | _ :: _, [] => none
  | w :: ws, c :: cs => if c = w then stripWord ws cs else none

/-- Parse a JSON number literal. -/
def parseNumber (cs : List Char) : Option (JVal × List Char) :=
  match cs with
  | [] => none
  | c0 :: cs0 =>
    let neg : Bool := c0 = '-'
    let cs1 : List Char := if c0 = '-' then cs0 else c0 :: cs0
    match takeDigits cs1 with
    | ([], _) => none
    | (d :: ds, r1) =>
      match parseFrac (digitsVal (d :: ds)) r1 with
      | none => none
      | some (m, fk, r2) =>
        match parseExp r2 with
        | none => none
        | some (ex, r3) =>
          let mInt : Int := if neg then -(m : Int) else (m : Int)
          some (.num mInt (ex - (fk : Int)), r3)

mutual

/-- Parse one JSON value (leading whitespace already skipped).  `fuel` bounds
the number of recursive parsing steps. -/
def parseValue : Nat → List Char → Option (JVal × List Char)
  | 0, _ => none
  | Nat.succ fuel, cs =>
    match cs with
    | [] => none
    | c :: cs1 =>
      if c = quoteChar then
        match parseStringBody cs1 with
        | some (body, rest) => some (.str (String.mk body), rest)
        | none => none
      else if c = lbrackChar then
        match skipWs cs1 with
        | [] => none
        | c2 :: r2 =>
          if c2 = rbrackChar then some (.arr [], r2)
          else
            match parseElems fuel (c2 :: r2) with
            | some (xs, rest) => some (.arr xs, rest)
            | none => none
      else if c = lbraceChar then
        match skipWs cs1 with
        | [] => none
        | c2 :: r2 =>
          if c2 = rbraceChar then some (.obj [], r2)
          else
            match parseMembers fuel (c2 :: r2) with
            | some (fs, rest) => some (.obj fs, rest)
            | none => none
      else if c = 't' then
        match stripWord ['r', 'u', 'e'] cs1 with
        | some rest => some (.bool true, rest)
        | none => none
      else if c = 'f' then
        match stripWord ['a', 'l', 's', 'e'] cs1 with
        | some rest => some (.bool false, rest)
        | none => none
      else if c = 'n' then
        match stripWord ['u', 'l', 'l'] cs1 with
        | some rest => some (.null, rest)
        | none => none
      else parseNumber (c :: cs1)

/-- Parse the comma-separated elements of a non-empty JSON array, consuming
the closing bracket. -/
def parseElems : Nat → List Char → Option (List JVal × List Char)
  | 0, _ => none
  | Nat.succ fuel, cs =>
    match parseValue fuel (skipWs cs) with
    | none => none
    | some (v, r) =>
      match skipWs r with
      | [] => none
      | c :: r2 =>
        if c = ',' then
          match parseElems fuel r2 with
          | some (vs, rest) => some (v :: vs, rest)
          | none => none
        else if c = rbrackChar then some ([v], r2)
        else none

/-- Parse the members of a non-empty JSON object, consuming the closing
brace. -/
def parseMembers : Nat → List Char → Option (List (String × JVal) × List Char)
  | 0, _ => none
  | Nat.succ fuel, cs =>
    match cs with
    | [] => none
    | c :: cs1 =>
      if c = quoteChar then
        match parseStringBody cs1 with
        | none => none
        | some (key, r1) =>
          match skipWs r1 with
          | [] => none
          | c2 :: r2 =>
            if c2 = ':' then
              match parseValue fuel (skipWs r2) with
              | none => none
              | some (v, r3) =>
                match skipWs r3 with
                | [] => none
                | c3 :: r4 =>
                  if c3 = ',' then
                    match parseMembers fuel (skipWs r4) with
                    | some (fs, rest) => some ((String.mk key, v) :: fs, rest)
                    | none => none
                  else if c3 = rbraceChar then some ([(String.mk key, v)], r4)
                  else none
            else none
      else none

end

/-- Model of Python `json.loads`: parse a complete JSON document, requiring
only whitespace after the value. -/
def jsonParse (s : String) : Option JVal :=
  match parseValue (2 * s.length + 4) (skipWs s.data) with
  | some (v, rest) => if skipWs rest = [] then some v else none
  | none => none

theorem skipWs_length (l : List Char) : (skipWs l).length ≤ l.length := by
  induction l with
  | nil => simp [skipWs]
  | cons c cs ih =>
    simp only [skipWs]
    split
    · exact Nat.le_trans ih (Nat.le_succ _)
    · exact Nat.le_refl _

theorem parseStringBody_consume :
    ∀ (l body rest : List Char), parseStringBody l = some (body, rest) →
      body.length + rest.length < l.length := by
  intro l
  induction l using parseStringBody.induct with
  | case1 => intro body rest h; rw [parseStringBody.eq_def] at h; simp at h
  | case2 cs2 =>
    intro body rest h
    rw [parseStringBody.eq_def] at h
    simp only [if_pos rfl, if_true, eq_self_iff_true, Option.some.injEq, Prod.mk.injEq] at h
    obtain ⟨h1, h2⟩ := h
    subst h1; subst h2
    simp
  | case3 hne =>
    intro body rest h
    rw [parseStringBody.eq_def] at h
    simp [hne] at h
  | case4 e cs2 ec hec body0 rest0 hp hne ih =>
    intro body rest h
    rw [parseStringBody.eq_def] at h
    simp only [hne, hec, hp, if_neg hne, if_true, if_false, eq_self_iff_true,
      Option.some.injEq, Prod.mk.injEq] at h
    obtain ⟨ha, hb⟩ := h
    subst ha; subst hb
    have := ih body0 rest0 hp
    simp only [List.length_cons]
    omega
  | case5 e cs2 ec hec hp hne ih =>
    intro body rest h
    rw [parseStringBody.eq_def] at h
    simp [hne, hec, hp] at h
  | case6 e cs2 hec hne =>
    intro body rest h
    rw [parseStringBody.eq_def] at h
    simp [hne, hec] at h
  | case7 c cs hq hb body0 rest0 hp ih =>
    intro body rest h
    rw [parseStringBody.eq_def] at h
    simp only [hq, hb, if_false, hp, if_neg hq, if_neg hb, Option.some.injEq,
      Prod.mk.injEq] at h
    obtain ⟨ha, hb'⟩ := h
    subst ha; subst hb'
    have := ih body0 rest0 hp
    simp only [List.length_cons]
    omega
  | case8 c cs hq hb hp ih =>
    intro body rest h
    rw [parseStringBody.eq_def] at h
    simp [hq, hb, hp] at h

theorem parseNumber_shape (cs : List Char) (v : JVal) (r : List Char)
    (h : parseNumber cs = some (v, r)) : ∃ m e, v = .num m e := by
  unfold parseNumber at h
  rcases cs with _ | ⟨c0, cs0⟩
  · simp at h
  · simp only [] at h
    rcases htd : takeDigits (if c0 = '-' then cs0 else c0 :: cs0) with ⟨ds, r1⟩
    simp only [htd] at h
    rcases ds with _ | ⟨d, ds⟩
    · simp at h
    · simp only [] at h
      rcases hf : parseFrac (digitsVal (d :: ds)) r1 with _ | ⟨m, fk, r2⟩
      · simp only [hf] at h
        exact Option.noConfusion h
      · simp only [hf] at h
        rcases he : parseExp r2 with _ | ⟨ex, r3⟩
        · simp only [he] at h
          exact Option.noConfusion h
        · simp only [he, Option.some.injEq, Prod.mk.injEq] at h
          exact ⟨_, _, h.1.symm⟩

theorem parseValue_str_inv (fuel : Nat) (cs : List Char) (t : String) (r : List Char)
    (h : parseValue fuel cs = some (.str t, r)) :
    ∃ cs1, cs = quoteChar :: cs1 ∧ parseStringBody cs1 = some (t.data, r) := by
  cases fuel with
  | zero => rw [parseValue.eq_1] at h; exact Option.noConfusion h
  | succ fuel =>
    rcases cs with _ | ⟨c, cs1⟩
    · rw [parseValue.eq_2] at h; exact Option.noConfusion h
    · rw [parseValue.eq_3] at h
      by_cases hq : c = quoteChar
      · subst hq
        simp only [eq_self_iff_true, if_true] at h
        rcases hp : parseStringBody cs1 with _ | ⟨body, rest⟩
        · simp only [hp] at h
          exact Option.noConfusion h
        · simp only [hp, Option.some.injEq, Prod.mk.injEq, JVal.str.injEq] at h
          refine ⟨cs1, rfl, ?_⟩
          rw [hp, ← h.1, h.2]
      · simp only [if_neg hq] at h
        by_cases hb : c = lbrackChar
        · subst hb
          simp only [eq_self_iff_true, if_true] at h
          rcases hsw : skipWs cs1 with _ | ⟨c2, r2⟩
          · simp only [hsw] at h
            exact Option.noConfusion h
          · simp only [hsw] at h
            by_cases hrb : c2 = rbrackChar
            · simp [hrb] at h
            · simp only [if_neg hrb] at h
              rcases he : parseElems fuel (c2 :: r2) with _ | ⟨xs, rest⟩
              · simp only [he] at h
                exact Option.noConfusion h
              · simp only [he] at h
                simp at h
        · simp only [if_neg hb] at h
          by_cases hc : c = lbraceChar
          · subst hc
            simp only [eq_self_iff_true, if_true] at h
            rcases hsw : skipWs cs1 with _ | ⟨c2, r2⟩
            · simp only [hsw] at h
              exact Option.noConfusion h
            · simp only [hsw] at h
              by_cases hrb : c2 = rbraceChar
              · simp [hrb] at h
              · simp only [if_neg hrb] at h
                rcases he : parseMembers fuel (c2 :: r2) with _ | ⟨fs, rest⟩
                · simp only [he] at h
                  exact Option.noConfusion h
                · simp only [he] at h
                  simp at h
          · simp only [if_neg hc] at h
            by_cases ht : c = 't'
            · subst ht
              simp only [eq_self_iff_true, if_true] at h
              rcases hsd : stripWord ['r', 'u', 'e'] cs1 with _ | rest
              · simp only [hsd] at h
                exact Option.noConfusion h
              · simp only [hsd] at h
                simp at h
            · simp only [if_neg ht] at h
              by_cases hf : c = 'f'
              · subst hf
                simp only [eq_self_iff_true, if_true] at h
                rcases hsd : stripWord ['a', 'l', 's', 'e'] cs1 with _ | rest
                · simp only [hsd] at h
                  exact Option.noConfusion h
                · simp only [hsd] at h
                  simp at h
              · simp only [if_neg hf] at h
                by_cases hn : c = 'n'
                · subst hn
                  simp only [eq_self_iff_true, if_true] at h
                  rcases hsd : stripWord ['u', 'l', 'l'] cs1 with _ | rest
                  · simp only [hsd] at h
                    exact Option.noConfusion h
                  · simp only [hsd] at h
                    simp at h
                · simp only [if_neg hn] at h
                  obtain ⟨m, e, hme⟩ := parseNumber_shape _ _ _ h
                  simp at hme

theorem jsonParse_str_shrink (s t : String) (h : jsonParse s = some (.str t)) :
    t.length < s.length := by
  unfold jsonParse at h
  rcases hv : parseValue (2 * s.length + 4) (skipWs s.data) with _ | ⟨v, rest⟩
  · rw [hv] at h; exact Option.noConfusion h
  · rw [hv] at h
    simp only [] at h
    by_cases hr : skipWs rest = []
    · rw [if_pos hr] at h
      simp only [Option.some.injEq] at h
      subst h
      obtain ⟨cs1, hcs, hp⟩ := parseValue_str_inv _ _ _ _ hv
      have hc := parseStringBody_consume _ _ _ hp
      have hsk : (skipWs s.data).length ≤ s.data.length := skipWs_length _
      rw [hcs] at hsk
      have hlen : t.length = t.data.length := rfl
      have hslen : s.length = s.data.length := rfl
      simp only [List.length_cons] at hsk
      omega
    · rw [if_neg hr] at h
      exact Option.noConfusion h

/-- Model of `decode_eval_json`'s `while` loop (source lines 128–138): while
the current value is a string, try `json.loads`; stop on a parse failure or
when re-parsing yields the same value, otherwise continue from the parsed
value.  A parsed value that is not a string leaves the loop on the next
iteration and is returned. -/
def decode_loop (s : String) : JVal :=
  match h : jsonParse s with
  | none => .str s
  | some (.str t) => if t = s then .str s else decode_loop t
  | some (.null) => .null
  | some (.bool b) => .bool b
  | some (.num m e) => .num m e
  | some (.arr xs) => .arr xs
  | some (.obj fs) => .obj fs
termination_by s.length
decreasing_by
  exact jsonParse_str_shrink _ _ h

/-- `decode_eval_json` (source lines 128–138): repeatedly re-parse string
values as JSON until a fixed point is reached. -/
def decode_eval_json : JVal → JVal
  | .str s => decode_loop s
  | .null => .null
  | .bool b => .bool b
  | .num m e => .num m e
  | .arr xs => .arr xs
  | .obj fs => .obj fs

theorem decode_loop_eq_none (s : String) (h : jsonParse s = none) :
    decode_loop s = .str s := by
  rw [decode_loop.eq_def]
  split <;> simp_all

theorem decode_loop_eq_str (s t : String) (h : jsonParse s = some (.str t)) :
    decode_loop s = if t = s then .str s else decode_loop t := by
  rw [decode_loop.eq_def]
  split <;> simp_all

theorem decode_loop_eq_done (s : String) (v : JVal) (h : jsonParse s = some v)
    (hv : ∀ t, v ≠ .str t) : decode_loop s = v := by
  cases v with
  | str t => exact absurd rfl (hv t)
  | _ =>
    rw [decode_loop.eq_def]
    split <;> rename_i heq <;> rw [h] at heq <;> simp_all

/-- A string returned by the decode loop can no longer be parsed: the loop
only stops on a string when `json.loads` fails on it. -/
theorem decode_loop_terminal :
    ∀ (s s' : String), decode_loop s = .str s' → jsonParse s' = none := by
  intro s
  induction s using decode_loop.induct with
  | case1 x hx =>
    intro s' h
    rw [decode_loop_eq_none x hx] at h
    injection h with h
    subst h
    exact hx
  | case2 t ht =>
    intro s' h
    exact absurd (jsonParse_str_shrink t t ht) (lt_irrefl _)
  | case3 x t hx hne ih =>
    intro s' h
    rw [decode_loop_eq_str x t hx, if_neg hne] at h
    exact ih s' h
  | case4 x hx =>
    intro s' h
    rw [decode_loop_eq_done x JVal.null hx (fun t ht => JVal.noConfusion ht)] at h
    exact JVal.noConfusion h
  | case5 x b hx =>
    intro s' h
    rw [decode_loop_eq_done x (JVal.bool b) hx (fun t ht => JVal.noConfusion ht)] at h
    exact JVal.noConfusion h
  | case6 x m e hx =>
    intro s' h
    rw [decode_loop_eq_done x (JVal.num m e) hx (fun t ht => JVal.noConfusion ht)] at h
    exact JVal.noConfusion h
  | case7 x xs hx =>
    intro s' h
    rw [decode_loop_eq_done x (JVal.arr xs) hx (fun t ht => JVal.noConfusion ht)] at h
    exact JVal.noConfusion h
  | case8 x fs hx =>
    intro s' h
    rw [decode_loop_eq_done x (JVal.obj fs) hx (fun t ht => JVal.noConfusion ht)] at h
    exact JVal.noConfusion h

/-- If `decode_eval_json` returns a string, that string is unparseable. -/
theorem decode_eval_json_str_out (v : JVal) (s' : String)
    (h : decode_eval_json v = .str s') : jsonParse s' = none := by
  cases v with
  | str s0 => exact decode_loop_terminal s0 s' h
  | null => exact JVal.noConfusion h
  | bool b => exact JVal.noConfusion h
  | num m e => exact JVal.noConfusion h
  | arr xs => exact JVal.noConfusion h
  | obj fs => exact JVal.noConfusion h

/-- C3: `decode_eval_json` re-parses string values to a fixed point.  (1) A
value wrapped as JSON text three levels deep decodes to the innermost
structural value.  (2) A string that does not parse as JSON is returned
unchanged.  (3) The loop stops at a fixed point: decoding is idempotent. -/
theorem decode_eval_json_fixed_point :
    (∀ (s1 s2 s3 : String) (v : JVal),
      jsonParse s1 = some (.str s2) → jsonParse s2 = some (.str s3) →
      jsonParse s3 = some v → (∀ t, v ≠ .str t) →
      decode_eval_json (.str s1) = v) ∧
    (∀ s : String, jsonParse s = none → decode_eval_json (.str s) = .str s) ∧
    (∀ v : JVal, decode_eval_json (decode_eval_json v) = decode_eval_json v) := by
  refine ⟨?_, ?_, ?_⟩
  · intro s1 s2 s3 v h1 h2 h3 hv
    have hne1 : s2 ≠ s1 := by
      intro he
      subst he
      exact absurd (jsonParse_str_shrink s2 s2 h1) (lt_irrefl _)
    have hne2 : s3 ≠ s2 := by
      intro he
      subst he
      exact absurd (jsonParse_str_shrink s3 s3 h2) (lt_irrefl _)
    show decode_loop s1 = v
    rw [decode_loop_eq_str s1 s2 h1, if_neg hne1,
      decode_loop_eq_str s2 s3 h2, if_neg hne2,
      decode_loop_eq_done s3 v h3 hv]
  · intro s h
    exact decode_loop_eq_none s h
  · intro v
    cases hres : decode_eval_json v with
    | str s' =>
      show decode_loop s' = .str s'
      exact decode_loop_eq_none s' (decode_eval_json_str_out v s' hres)
    | _ => rfl

/-- Witness for C3: a concrete array wrapped three levels deep as JSON text
decodes to the array, and a concrete non-JSON string is returned unchanged. -/
theorem decode_eval_json_fixed_point_witness :
    decode_eval_json (.str "\"\\\"[1]\\\"\"") = .arr [.num 1 0] ∧
    decode_eval_json (.str "hello") = .str "hello" :=
  ⟨decode_eval_json_fixed_point.1 "\"\\\"[1]\\\"\"" "\"[1]\"" "[1]"
      (.arr [.num 1 0]) rfl rfl rfl (fun t ht => JVal.noConfusion ht),
    decode_eval_json_fixed_point.2.1 "hello" rfl⟩

/-- C9: the decode loop terminates on every input.  (1) Each continuing
iteration strictly shrinks the string: a string parsed out of a string is
strictly shorter.  (2) The result is terminal: if it is a string, that string
is unparseable (or re-parses to the result itself). -/
theorem decode_eval_json_terminates :
    (∀ (s t : String), jsonParse s = some (.str t) → t.length < s.length) ∧
    (∀ (v : JVal) (s : String), decode_eval_json v = .str s →
      jsonParse s = none ∨ jsonParse s = some (decode_eval_json v)) := by
  constructor
  · exact jsonParse_str_shrink
  · intro v s h
    exact Or.inl (decode_eval_json_str_out v s h)

/-- Witness for C9 at concrete inputs. -/
theorem decode_eval_json_terminates_witness :
    ("ab".length < "\"ab\"".length) ∧
    (jsonParse "hello" = none ∨ jsonParse "hello" = some (decode_eval_json (.str "hello"))) :=
  ⟨decode_eval_json_terminates.1 "\"ab\"" "ab" rfl,
    decode_eval_json_terminates.2 (.str "hello") "hello"
      (decode_eval_json_fixed_point.2.1 "hello" rfl)⟩

/-! ## Effectful world

The rest of the script is effectful.  Each function becomes a Lean function
from an environment `Env` (an oracle fixing every external outcome) to a
`Step α`: the ordered trace of externally visible effects together with an
`Except PyErr α` outcome (normal return, raised exception, or `exit`).
Subprocess argv values for `gdbus` calls are abstracted into symbolic
`EvalCall` descriptors; log lines keep a fixed prefix of the source message
with timestamps and interpolated values elided. -/

/-- Python string `split` on a single separator character. -/
def splitCharAux (sep : Char) (cur : List Char) : List Char → List (List Char)
  | [] => [cur.reverse]
  | c :: cs => if c = sep then cur.reverse :: splitCharAux sep [] cs else splitCharAux sep (c :: cur) cs

/-- Python `s.split(sep)` for a one-character separator. -/
def pySplit (s : String) (sep : Char) : List String :=
  (splitCharAux sep [] s.data).map String.mk

/-- Python `s.strip()`. -/
def pyStrip (s : String) : String :=
  String.mk (((s.data.dropWhile fun c => isWsChar c).reverse.dropWhile fun c => isWsChar c).reverse)

/-- Does `pre` occur at the start of `l`? -/
def startsWithList : List Char → List Char → Bool
  | [], _ => true
  | _ :: _, [] => false
  | p :: ps, c :: cs => p = c && startsWithList ps cs

/-- Does `needle` occur contiguously anywhere in `hay`? -/
def infixOfList (needle : List Char) : List Char → Bool
  | [] => needle.isEmpty
  | c :: cs => startsWithList needle (c :: cs) || infixOfList needle cs

/-- Python `s.startswith(pre)`. -/
def pyStartsWith (s pre : String) : Bool := startsWithList pre.data s.data

/-- Python `needle in hay` for strings: substring containment.  Also the
semantics of JavaScript `String.prototype.includes` (case-sensitive). -/
def containsSubstr (hay needle : String) : Bool := infixOfList needle.data hay.data

/-- A GNOME window actor as seen by the shell-eval snippet in
`gnome_find_and_accept` (source lines 165–177): `meta_window.get_title()`
may be `null` (modelled `none`), `get_id()` is a number, `has_focus()` a
boolean. -/
structure GnomeWin where
  title : Option String
  id : Int
  focus : Bool

/-- The JS filter in the window-query eval expression (source line 174):
`w.title && w.title.includes(title)` — keep windows whose title is non-null,
non-empty (JS truthiness) and contains the searched title as a
case-sensitive substring. -/
def gnomeFilter (ws : List GnomeWin) (needle : String) : List GnomeWin :=
  ws.filter fun w =>
    match w.title with
    | some t => decide (t ≠ "") && containsSubstr t needle
    | none => false

/-- The JSON value produced for one filtered window by the JS `map` (source
lines 169–173): an object with fields `title`, `id`, `focus` in that order. -/
def gwinToJVal (w : GnomeWin) : JVal :=
  .obj [("title", .str (w.title.getD "")), ("id", .num w.id 0), ("focus", .bool w.focus)]

/-- JSON text of a string per `JSON.stringify`: quote and backslash are
escaped, the common control characters use their named escapes.  (Other
control characters are left raw; see the module comment.) -/
def encStrBody : List Char → List Char
  | [] => []
  | c :: cs =>
    if c = quoteChar then backslashChar :: quoteChar :: encStrBody cs
    else if c = backslashChar then backslashChar :: backslashChar :: encStrBody cs
    else if c = Char.ofNat 10 then backslashChar :: 'n' :: encStrBody cs
    else if c = Char.ofNat 13 then backslashChar :: 'r' :: encStrBody cs
    else if c = Char.ofNat 9 then backslashChar :: 't' :: encStrBody cs
    else if c = Char.ofNat 8 then backslashChar :: 'b' :: encStrBody cs
    else if c = Char.ofNat 12 then backslashChar :: 'f' :: encStrBody cs
    else c :: encStrBody cs

/-- JSON text of a string literal, with quotes. -/
def encString (s : String) : List Char := quoteChar :: (encStrBody s.data ++ [quoteChar])

/-- Decimal digits of a natural number, most significant first (fueled so the
definition is structural; `natDigs` supplies ample fuel). -/
def natDigsAux : Nat → Nat → List Char → List Char
  | 0, _, acc => acc
  | Nat.succ fuel, n, acc =>
    if n < 10 then Char.ofNat (48 + n) :: acc
    else natDigsAux fuel (n / 10) (Char.ofNat (48 + n % 10) :: acc)

/-- Decimal digits of a natural number. -/
def natDigs (n : Nat) : List Char := natDigsAux (n + 1) n []

/-- JSON text of an integer. -/
def encInt (i : Int) : List Char :=
  if i < 0 then '-' :: natDigs (-i).toNat else natDigs i.toNat

/-- JSON text of a boolean. -/
def encBool (b : Bool) : List Char :=
  if b then ['t', 'r', 'u', 'e'] else ['f', 'a', 'l', 's', 'e']

/-- JSON text of one window object, exactly as `JSON.stringify` renders the
object built by the JS `map` (source lines 169–173). -/
def encWin (w : GnomeWin) : List Char :=
  lbraceChar ::
    (encString "title" ++ ':' :: encString (w.title.getD "") ++
      ',' :: encString "id" ++ ':' :: encInt w.id ++
      ',' :: encString "focus" ++ ':' :: encBool w.focus ++ [rbraceChar])

/-- JSON text of the comma-separated window objects (array brackets added by
`gnome_query_raw`). -/
def encWinList : List GnomeWin → List Char
  | [] => []
  | [w] => encWin w
  | w :: w2 :: ws => encWin w ++ ',' :: encWinList (w2 :: ws)

/-- The string datum the shell-eval channel returns for the window query:
`JSON.stringify` of the mapped-and-filtered window actors (source lines
165–177), rendered over the oracle's window list. -/
def gnome_query_raw (ws : List GnomeWin) (title : String) : String :=
  String.mk (match gnomeFilter ws title with
    | [] => [lbrackChar, rbrackChar]
    | w :: rest => lbrackChar :: (encWinList (w :: rest) ++ [rbrackChar]))

/-- Symbolic description of a `gdbus` `org.gnome.Shell.Eval` call site. -/
inductive EvalCall where
  | checkEval
  | queryWindows (title : String)
  | activateWindow (id : JVal)

/-- Externally visible effects of the script. -/
inductive Effect where
  | logMsg (msg : String)
  | sleepEff
  | runProc (args : List String)
  | shellEval (call : EvalCall)
  | screenQuery (gnome : Bool)
  | spawnDaemon (socketPath : String)

/-- Python control-flow outcomes: a raised `RuntimeError`-style exception
(message kept), a raised `TypeError`/`KeyError` (collapsed into one
constructor), or `exit(code)`. -/
inductive PyErr where
  | runtimeError (msg : String)
  | typeError
  | sysExit (code : Nat)

/-- A computation step: the effect trace plus the outcome. -/
def Step (α : Type) : Type := List Effect × Except PyErr α

/-- Normal return without effects. -/
def sret {α : Type} (a : α) : Step α := ([], .ok a)

/-- Raise without effects. -/
def serr {α : Type} (e : PyErr) : Step α := ([], .error e)

/-- Emit effects, return unit. -/
def semit (es : List Effect) : Step Unit := (es, .ok ())

/-- Sequencing: run `x`; on normal return feed the value to `f`, otherwise
propagate the exception.  Effects accumulate in order. -/
def sbind {α β : Type} (x : Step α) (f : α → Step β) : Step β :=
  match x.2 with
  | .error e => (x.1, .error e)
  | .ok a => (x.1 ++ (f a).1, (f a).2)

/-- Python `for x in xs: body` where the body returns no value. -/
def sfor {α : Type} (xs : List α) (f : α → Step Unit) : Step Unit :=
  match xs with
  | [] => sret ()
  | x :: rest => sbind (f x) fun _ => sfor rest f

/-- Outcome of one `subprocess.run` under the oracle: binary missing
(`FileNotFoundError`), or completed with stdout/stderr/exit code. -/
inductive RunOut where
  | notFound
  | res (stdout : String) (stderr : String) (code : Int)

/-- Outcome of one `gdbus` eval channel use: `FileNotFoundError`,
`CalledProcessError`, or a well-formed `(ok, data)` reply. -/
inductive EvalChan where
  | notFound
  | callFailed
  | reply (ok : Bool)

/-- The configuration values the script reads (config-file parsing itself is
an external collaborator; values are immutable for the process lifetime). -/
structure Config where
  verbose : Bool
  socketPath : String
  dialogTitles : String → String
  seq : String → Nat → Option String

/-- The oracle for all external interactions of one tick (and of setup). -/
structure Env where
  desktop : String
  cfg : Config
  runResult : List String → RunOut
  gnomeSaver : Option String
  kdeDbusImport : Bool
  kdeSaver : Option Bool
  evalCheck : EvalChan
  evalCheckData : String
  evalQuery : String → EvalChan
  evalActivate : JVal → EvalChan
  gnomeWindows : List GnomeWin
  socketExists : Bool
  spawnOk : Bool
  spawnPolls : Nat

/-- Is this effect a synthetic-input injection (a `ydotool key` call)? -/
def isInjectorSend : Effect → Bool
  | .runProc ("ydotool" :: "key" :: _) => true
  | _ => false

/-- Is this effect a window-discovery interaction (`kdotool` call or shell
eval)? -/
def isDiscovery : Effect → Bool
  | .runProc ("kdotool" :: _) => true
  | .shellEval _ => true
  | _ => false

/-- Is this effect a GNOME window activation? -/
def isActivateEff : Effect → Bool
  | .shellEval (.activateWindow _) => true
  | _ => false

/-- Is this effect a daemon launch (`sudo -b ydotoold ...`)? -/
def isSpawn : Effect → Bool
  | .spawnDaemon _ => true
  | _ => false

/-- `run` (source lines 260–277): run a subprocess; on non-zero exit log and
return `(stderr, code)` when stderr is non-empty else `(None, code)`; on
success return `(stdout, 0)`; a missing binary logs and calls `exit(1)`. -/
def run (env : Env) (args : List String) : Step (Option String × Int) :=
  match env.runResult args with
  | .notFound =>
    ([.runProc args, .logMsg ("Command not found: " ++ args.headD "")], .error (.sysExit 1))
  | .res out err code =>
    if code ≠ 0 then
      if err ≠ "" then
        ([.runProc args, .logMsg ("Error running " ++ args.headD "" ++ ": " ++ err)],
          .ok (some err, code))
      else
        ([.runProc args, .logMsg ("Error running " ++ args.headD "")], .ok (none, code))
    else ([.runProc args], .ok (some out, 0))

/-- The argv tail built by `press_keys` (source lines 57–61): all key-down
events (`key:1`) in listed order, then key-up events (`key:0`) over the
reversed key list. -/
def press_keys_args (keys : List String) : List String :=
  (keys.map fun k => k ++ ":1") ++ ((keys.reverse).map fun k => k ++ ":0")

/-- `press_keys` (source lines 57–61): log, then one `ydotool key` call
carrying all down events then all up events. -/
def press_keys (env : Env) (keys : List String) : Step Unit :=
  sbind (semit [.logMsg "Pressing down keys, up keys"]) fun _ =>
  sbind (run env ("ydotool" :: "key" :: press_keys_args keys)) fun _ => sret ()

/-- Loop body of `press_key_sequence` (source lines 28–44): scan
`accept_sequence_i` for `i` in `range(10)`, `break` at the first missing
key; `<sleep>` pauses, any other value is a comma-separated key combo. -/
def press_key_sequence_go (env : Env) (sec : String) : Nat → Nat → Step Unit
  | _, 0 => sret ()
  | i, Nat.succ rem =>
    match env.cfg.seq sec i with
    | none => sret ()
    | some s =>
      if s = "<sleep>" then
        sbind (semit [.logMsg ("Sleep sequence: " ++ sec), .logMsg "Sleeping", .sleepEff]) fun _ =>
        press_key_sequence_go env sec (i + 1) rem
      else
        sbind (semit [.logMsg ("Pressing key sequence: " ++ sec ++ ": " ++ s)]) fun _ =>
        sbind (press_keys env (pySplit s ',')) fun _ =>
        press_key_sequence_go env sec (i + 1) rem

/-- `press_key_sequence` (source lines 28–44). -/
def press_key_sequence (env : Env) (sec : String) : Step Unit :=
  press_key_sequence_go env sec 0 10

/-- `kde_search_window` (source lines 47–49): run `kdotool search --name`,
and split whatever `run` returned into non-empty lines (on failure with
non-empty stderr, `run` returns the stderr text). -/
def kde_search_window (env : Env) (title : String) : Step (List String) :=
  sbind (run env ["kdotool", "search", "--name", title]) fun p =>
    sret (match p.1 with
      | some s => if s ≠ "" then (pySplit s (Char.ofNat 10)).filter (fun w => w ≠ "") else []
      | none => [])

/-- `kde_get_active_window` (source lines 52–54). -/
def kde_get_active_window (env : Env) : Step (Option String) :=
  sbind (run env ["kdotool", "getactivewindow"]) fun p =>
    sret (match p.1 with
      | some s => if s ≠ "" then some (pyStrip s) else none
      | none => none)

/-- `kde_ensure_window_focus` (source lines 64–68). -/
def kde_ensure_window_focus (env : Env) (window_id : String) : Step Unit :=
  sbind (kde_get_active_window env) fun active =>
    if active ≠ some window_id then
      sbind (semit [.logMsg ("Activating window: " ++ window_id)]) fun _ =>
      sbind (run env ["kdotool", "windowactivate", window_id]) fun _ => sret ()
    else sret ()

/-- `sleep_before_sequence` (source lines 203–206). -/
def sleep_before_sequence : Step Unit :=
  ([.logMsg "Waiting before accepting dialog", .sleepEff], .ok ())

/-- Inner-loop body of `kde_find_and_accept` (source lines 71–79). -/
def kde_accept_window (env : Env) (window_id : String) : Step Unit :=
  sbind (kde_ensure_window_focus env window_id) fun _ =>
  sbind sleep_before_sequence fun _ =>
  sbind (semit [.logMsg "Accepting KDE Portal permission dialog"]) fun _ =>
  press_key_sequence env "kde"

/-- `kde_find_and_accept` (source lines 71–79). -/
def kde_find_and_accept (env : Env) : Step Unit :=
  sfor (pySplit (env.cfg.dialogTitles "kde") ',') fun title =>
    sbind (kde_search_window env title) fun wids =>
    sfor wids (kde_accept_window env)

/-- What `gnome_shell_eval` returns to its caller (source lines 83–109): on
`FileNotFoundError` or `CalledProcessError` it returns the single value
`False` (which a tuple-unpacking caller cannot destructure), otherwise the
pair `(ok, decode_eval_json(data))`. -/
inductive EvalRet where
  | single (b : Bool)
  | pair (ok : Bool) (result : JVal)

/-- `gnome_shell_eval` (source lines 83–109) at one call site, given the
channel outcome and the datum the shell would return. -/
def gnome_shell_eval_out (chan : EvalChan) (call : EvalCall) (data : String) : Step EvalRet :=
  match chan with
  | .notFound =>
    ([.shellEval call, .logMsg "Program gdbus not found"], .ok (.single false))
  | .callFailed =>
    ([.shellEval call, .logMsg "DBus call failed"], .ok (.single false))
  | .reply ok =>
    ([.shellEval call], .ok (.pair ok (decode_eval_json (.str data))))

/-- The `gnome_shell_eval("1+1")` capability-check call (source line 114);
the returned datum is oracle-supplied. -/
def gnome_shell_eval_check (env : Env) : Step EvalRet :=
  gnome_shell_eval_out env.evalCheck .checkEval env.evalCheckData

/-- The per-title window-query eval call (source lines 165–177); on a
well-formed reply the datum is the `JSON.stringify` text of the filtered
window list. -/
def gnome_shell_eval_query (env : Env) (title : String) : Step EvalRet :=
  gnome_shell_eval_out (env.evalQuery title) (.queryWindows title)
    (gnome_query_raw env.gnomeWindows title)

/-- The activation eval call inside `gnome_activate_window` (source lines
141–151); its datum is irrelevant to the caller. -/
def gnome_shell_eval_activate (env : Env) (id : JVal) : Step EvalRet :=
  gnome_shell_eval_out (env.evalActivate id) (.activateWindow id) ""

/-- Python truthiness of a decoded JSON value. -/
def pyTruthy : JVal → Bool
  | .null => false
  | .bool b => b
  | .num m _ => decide (m ≠ 0)
  | .str s => decide (s ≠ "")
  | .arr xs => !xs.isEmpty
  | .obj fs => !fs.isEmpty

/-- Python `result == n` for an integer literal `n` (a float with a nonzero
decoded exponent never equals an integer here; see the module comment). -/
def pyEqInt (v : JVal) (n : Int) : Bool :=
  match v with
  | .num m e => decide (e = 0) && decide (m = n)
  | _ => false

/-- `gnome_check_shell_eval` (source lines 112–125): evaluate `1+1`; the
surrounding `try` catches the `TypeError` from unpacking a `single` return. -/
def gnome_check_shell_eval (env : Env) : Step Bool :=
  sbind (gnome_shell_eval_check env) fun r =>
    match r with
    | .single _ => ([.logMsg "Error checking GNOME shell eval"], .ok false)
    | .pair ok result =>
      if ok && pyEqInt result 2 then sret true
      else if pyTruthy result then
        ([.logMsg "GNOME shell eval returned unexpected result"], .ok false)
      else ([.logMsg "GNOME shell eval returned no result"], .ok false)

/-- `gnome_activate_window` (source lines 141–151): a `single` return makes
the tuple unpacking raise `TypeError`; `ok = False` raises `RuntimeError`. -/
def gnome_activate_window (env : Env) (id : JVal) : Step Unit :=
  sbind (gnome_shell_eval_activate env id) fun r =>
    match r with
    | .single _ => serr .typeError
    | .pair ok _ =>
      if ok then sret () else serr (.runtimeError "Failed to activate GNOME dialog")

/-- Python dict lookup on a decoded JSON object. -/
def lookupField (fs : List (String × JVal)) (k : String) : Option JVal :=
  match fs.find? (fun p => decide (p.1 = k)) with
  | some p => some p.2
  | none => none

/-- Per-title loop body of `gnome_find_and_accept` (source lines 164–200):
query, skip the title unless the reply is ok and non-empty, then act on
`result[0]` only — activate it if unfocused, wait, and play the `gnome`
sequence.  Missing keys or a non-list result raise (`TypeError`/`KeyError`,
collapsed into `typeError`). -/
def gnome_accept_title (env : Env) (title : String) : Step Unit :=
  sbind (gnome_shell_eval_query env title) fun r =>
    match r with
    | .single _ => serr .typeError
    | .pair ok result =>
      if !ok || !pyTruthy result then sret ()
      else
        match result with
        | .arr ws =>
          match ws with
          | [] => sret ()
          | w :: _ =>
            match w with
            | .obj fields =>
              match lookupField fields "title", lookupField fields "id",
                  lookupField fields "focus" with
              | some _, some idv, some fv =>
                sbind (semit [.logMsg "Found GNOME dialog"]) fun _ =>
                sbind (if !pyTruthy fv then
                    sbind (semit [.logMsg "Activating GNOME dialog"]) fun _ =>
                    gnome_activate_window env idv
                  else sret ()) fun _ =>
                sbind sleep_before_sequence fun _ =>
                sbind (semit [.logMsg "Accepting GNOME Portal permission dialog"]) fun _ =>
                press_key_sequence env "gnome"
              | _, _, _ => serr .typeError
            | _ => serr .typeError
        | _ => serr .typeError

/-- `gnome_find_and_accept` (source lines 154–200): capability check first
(failure prints a hint and raises), then one query-and-accept pass per
configured title. -/
def gnome_find_and_accept (env : Env) : Step Unit :=
  sbind (gnome_check_shell_eval env) fun ok =>
    if ok then
      sfor (pySplit (env.cfg.dialogTitles "gnome") ',') (gnome_accept_title env)
    else
      ([.logMsg "Hint: Enable GNOME unsafe mode to use shell eval"],
        .error (.runtimeError "Unable to use shell eval, check GNOME unsafe mode is enabled."))

/-- `accept_dialogs` (source lines 243–252): dispatch on the
`XDG_CURRENT_DESKTOP` value by substring containment, GNOME checked first. -/
def accept_dialogs (env : Env) : Step Unit :=
  if containsSubstr env.desktop "GNOME" then gnome_find_and_accept env
  else if containsSubstr env.desktop "KDE" then kde_find_and_accept env
  else if env.desktop ≠ "" then serr (.runtimeError ("Unsupported desktop: " ++ env.desktop))
  else serr (.runtimeError "XDG_CURRENT_DESKTOP environment variable is not set.")

/-- `is_gnome_screen_locked` (source lines 366–385): any failure of the
`gdbus` screensaver query raises `RuntimeError`; otherwise the answer is
whether the stripped output starts with `(true`. -/
def is_gnome_screen_locked (env : Env) : Step Bool :=
  match env.gnomeSaver with
  | none => ([.screenQuery true], .error (.runtimeError "Could not check GNOME lock screen"))
  | some out => ([.screenQuery true], .ok (pyStartsWith (pyStrip out) "(true"))

/-- `is_kde_screen_locked` (source lines 388–404): missing `dbus-python`
raises; any DBus failure raises `RuntimeError`. -/
def is_kde_screen_locked (env : Env) : Step Bool :=
  if !env.kdeDbusImport then serr (.runtimeError "dbus-python is needed for KDE lock detection.")
  else
    match env.kdeSaver with
    | none => ([.screenQuery false], .error (.runtimeError "Could not check KDE lock screen"))
    | some b => ([.screenQuery false], .ok b)

/-- `is_desktop_locked` (source lines 407–416): same dispatch as
`accept_dialogs`. -/
def is_desktop_locked (env : Env) : Step Bool :=
  if containsSubstr env.desktop "GNOME" then is_gnome_screen_locked env
  else if containsSubstr env.desktop "KDE" then is_kde_screen_locked env
  else if env.desktop ≠ "" then serr (.runtimeError ("Unsupported desktop: " ++ env.desktop))
  else serr (.runtimeError "XDG_CURRENT_DESKTOP environment variable is not set.")

/-- `is_verbose` (source lines 419–420). -/
def is_verbose (env : Env) : Bool := env.cfg.verbose

/-- One iteration of the `while True` poll loop in `main` (source lines
431–437): check the lock, act if unlocked (log instead when verbose), then
sleep for the poll interval.  There is no per-iteration exception handler:
any exception propagates out of the loop. -/
def tick (env : Env) : Step Unit :=
  sbind (is_desktop_locked env) fun locked =>
    sbind (if !locked then accept_dialogs env
      else if is_verbose env then semit [.logMsg "Desktop is locked, skipping dialog checks."]
      else sret ()) fun _ =>
    semit [.sleepEff]

/-- A finite prefix of the poll loop: one `tick` per oracle environment,
stopping when an exception or `exit` escapes a tick. -/
def run_ticks (envs : List Env) : Step Unit := sfor envs tick

/-- The `while not sock_path.exists()` wait (source lines 238–240), given
how many polls the oracle says are needed. -/
def socket_wait_effects : Nat → List Effect
  | 0 => []
  | Nat.succ n => .logMsg "Waiting for yDoTool daemon to start..." :: .sleepEff :: socket_wait_effects n

/-- `ensure_ydotoold` (source lines 209–240): if the control socket exists,
probe with `ydotool debug` and raise if it fails; otherwise launch the
daemon with `sudo -b ydotoold` (launch failure exits with code 1) and poll
until the socket appears. -/
def ensure_ydotoold (env : Env) : Step Unit :=
  if env.socketExists then
    sbind (semit [.logMsg ("Found yDoTool daemon, socket: " ++ env.cfg.socketPath)]) fun _ =>
    sbind (run env ["ydotool", "debug"]) fun p =>
      if p.2 ≠ 0 then
        serr (.runtimeError ("yDoTool error, try deleting socket: " ++ env.cfg.socketPath))
      else sret ()
  else
    sbind (semit [.logMsg "Starting yDoTool daemon..."]) fun _ =>
    if env.spawnOk then
      sbind (semit [.spawnDaemon env.cfg.socketPath]) fun _ =>
      semit (socket_wait_effects env.spawnPolls)
    else
      ([.spawnDaemon env.cfg.socketPath,
        .logMsg "Failed to start yDoTool daemon, check if it is installed"],
        .error (.sysExit 1))

/-- `main` after `config()` (source lines 423–439): one-time setup then the
poll loop (a finite prefix of it). -/
def main_loop (env0 : Env) (ticks : List Env) : Step Unit :=
  sbind (semit [.logMsg "Checking for yDoTool daemon..."]) fun _ =>
  sbind (ensure_ydotoold env0) fun _ =>
  sbind (semit [.logMsg "Watching for Portal permission dialogs..."]) fun _ =>
  run_ticks ticks

/-- The two supported desktop variants. -/
inductive Variant where
  | gnome
  | kde

/-- The desktop-variant resolution rule shared by `accept_dialogs` (source
lines 243–252) and `is_desktop_locked` (source lines 407–416): substring
tests on `XDG_CURRENT_DESKTOP`, GNOME first, with distinct errors for an
unsupported and an unset value. -/
def resolve_desktop (desktop : String) : Except String Variant :=
  if containsSubstr desktop "GNOME" then .ok .gnome
  else if containsSubstr desktop "KDE" then .ok .kde
  else if desktop ≠ "" then .error ("Unsupported desktop: " ++ desktop)
  else .error "XDG_CURRENT_DESKTOP environment variable is not set."

theorem stringMkData (s : String) : String.mk s.data = s := rfl

theorem skipWs_cons_not_ws (c : Char) (l : List Char) (h : isWsChar c = false) :
    skipWs (c :: l) = c :: l := by
  simp [skipWs, h]

theorem parseStringBody_enc (l rest : List Char) :
    parseStringBody (encStrBody l ++ quoteChar :: rest) = some (l, rest) := by
  induction l with
  | nil =>
    rw [encStrBody, List.nil_append, parseStringBody.eq_def]
    simp
  | cons c cs ih =>
    by_cases h1 : c = quoteChar
    · subst h1
      rw [encStrBody]
      simp only [eq_self_iff_true, if_true]
      rw [List.cons_append, List.cons_append, parseStringBody.eq_def]
      simp only [show ¬(backslashChar = quoteChar) from by decide, if_false, eq_self_iff_true, if_true,
        show escChar? quoteChar = some quoteChar from rfl, ih]
    · by_cases h2 : c = backslashChar
      · subst h2
        rw [encStrBody]
        simp only [show ¬(backslashChar = quoteChar) from by decide, if_false, eq_self_iff_true, if_true]
        rw [List.cons_append, List.cons_append, parseStringBody.eq_def]
        simp only [show ¬(backslashChar = quoteChar) from by decide, if_false, eq_self_iff_true, if_true,
          show escChar? backslashChar = some backslashChar from rfl, ih]
      · by_cases h3 : c = Char.ofNat 10
        · subst h3
          rw [encStrBody]
          simp only [show ¬(Char.ofNat 10 = quoteChar) from by decide, if_false,
            show ¬(Char.ofNat 10 = backslashChar) from by decide, eq_self_iff_true, if_true]
          rw [List.cons_append, List.cons_append, parseStringBody.eq_def]
          simp only [show ¬(backslashChar = quoteChar) from by decide, if_false, eq_self_iff_true, if_true,
            show escChar? 'n' = some (Char.ofNat 10) from rfl, ih]
        · by_cases h4 : c = Char.ofNat 13
          · subst h4
            rw [encStrBody]
            simp only [show ¬(Char.ofNat 13 = quoteChar) from by decide, if_false,
              show ¬(Char.ofNat 13 = backslashChar) from by decide,
              show ¬(Char.ofNat 13 = Char.ofNat 10) from by decide, eq_self_iff_true, if_true]
            rw [List.cons_append, List.cons_append, parseStringBody.eq_def]
            simp only [show ¬(backslashChar = quoteChar) from by decide, if_false, eq_self_iff_true, if_true,
              show escChar? 'r' = some (Char.ofNat 13) from rfl, ih]
          · by_cases h5 : c = Char.ofNat 9
            · subst h5
              rw [encStrBody]
              simp only [show ¬(Char.ofNat 9 = quoteChar) from by decide, if_false,
                show ¬(Char.ofNat 9 = backslashChar) from by decide,
                show ¬(Char.ofNat 9 = Char.ofNat 10) from by decide,
                show ¬(Char.ofNat 9 = Char.ofNat 13) from by decide, eq_self_iff_true, if_true]
              rw [List.cons_append, List.cons_append, parseStringBody.eq_def]
              simp only [show ¬(backslashChar = quoteChar) from by decide, if_false, eq_self_iff_true, if_true,
                show escChar? 't' = some (Char.ofNat 9) from rfl, ih]
            · by_cases h6 : c = Char.ofNat 8
              · subst h6
                rw [encStrBody]
                simp only [show ¬(Char.ofNat 8 = quoteChar) from by decide, if_false,
                  show ¬(Char.ofNat 8 = backslashChar) from by decide,
                  show ¬(Char.ofNat 8 = Char.ofNat 10) from by decide,
                  show ¬(Char.ofNat 8 = Char.ofNat 13) from by decide,
                  show ¬(Char.ofNat 8 = Char.ofNat 9) from by decide, eq_self_iff_true, if_true]
                rw [List.cons_append, List.cons_append, parseStringBody.eq_def]
                simp only [show ¬(backslashChar = quoteChar) from by decide, if_false, eq_self_iff_true, if_true,
                  show escChar? 'b' = some (Char.ofNat 8) from rfl, ih]
              · by_cases h7 : c = Char.ofNat 12
                · subst h7
                  rw [encStrBody]
                  simp only [show ¬(Char.ofNat 12 = quoteChar) from by decide, if_false,
                    show ¬(Char.ofNat 12 = backslashChar) from by decide,
                    show ¬(Char.ofNat 12 = Char.ofNat 10) from by decide,
                    show ¬(Char.ofNat 12 = Char.ofNat 13) from by decide,
                    show ¬(Char.ofNat 12 = Char.ofNat 9) from by decide,
                    show ¬(Char.ofNat 12 = Char.ofNat 8) from by decide, eq_self_iff_true, if_true]
                  rw [List.cons_append, List.cons_append, parseStringBody.eq_def]
                  simp only [show ¬(backslashChar = quoteChar) from by decide, if_false,
                    eq_self_iff_true, if_true, show escChar? 'f' = some (Char.ofNat 12) from rfl, ih]
                · rw [encStrBody]
                  simp only [if_neg h1, if_neg h2, if_neg h3, if_neg h4, if_neg h5, if_neg h6,
                    if_neg h7]
                  rw [List.cons_append, parseStringBody.eq_def]
                  simp only [if_neg h1, if_neg h2, ih]

theorem parseValue_enc_str (fuel : Nat) (s : String) (rest : List Char) :
    parseValue (fuel + 1) (encString s ++ rest) = some (.str s, rest) := by
  rw [encString, List.cons_append, List.append_assoc, List.cons_append]
  rw [show fuel + 1 = Nat.succ fuel from rfl, parseValue.eq_3]
  simp only [eq_self_iff_true, if_true, List.nil_append, parseStringBody_enc, stringMkData]

/-- Proof-side specification of decimal digit rendering. -/
def natDigsSpec (n : Nat) : List Char :=
  if n < 10 then [Char.ofNat (48 + n)]
  else natDigsSpec (n / 10) ++ [Char.ofNat (48 + n % 10)]
termination_by n
decreasing_by
  exact Nat.div_lt_self (by omega) (by omega)

theorem natDigsAux_eq :
    ∀ (fuel n : Nat) (acc : List Char), n < 10 ^ (fuel + 1) →
      natDigsAux (fuel + 1) n acc = natDigsSpec n ++ acc := by
  intro fuel
  induction fuel with
  | zero =>
    intro n acc h
    have h10 : n < 10 := by simpa using h
    rw [natDigsSpec, if_pos h10]
    show (if n < 10 then Char.ofNat (48 + n) :: acc else _) = _
    rw [if_pos h10]
    simp
  | succ f ih =>
    intro n acc h
    by_cases h10 : n < 10
    · rw [natDigsSpec, if_pos h10]
      show (if n < 10 then Char.ofNat (48 + n) :: acc else _) = _
      rw [if_pos h10]
      simp
    · rw [natDigsSpec, if_neg h10]
      show (if n < 10 then Char.ofNat (48 + n) :: acc else
        natDigsAux (f + 1) (n / 10) (Char.ofNat (48 + n % 10) :: acc)) = _
      rw [if_neg h10]
      have hdiv : n / 10 < 10 ^ (f + 1) := by
        rw [Nat.div_lt_iff_lt_mul (by omega : 0 < 10)]
        calc n < 10 ^ (f + 1 + 1) := h
        _ = 10 ^ (f + 1) * 10 := by ring
      rw [ih (n / 10) _ hdiv]
      simp

theorem natDigs_eq (n : Nat) : natDigs n = natDigsSpec n := by
  have hbound : n < 10 ^ (n + 1) := by
    calc n < 2 ^ n := Nat.lt_two_pow n
    _ ≤ 10 ^ n := Nat.pow_le_pow_left (by omega) n
    _ ≤ 10 ^ (n + 1) := Nat.pow_le_pow_right (by omega) (Nat.le_succ n)
  rw [natDigs, natDigsAux_eq n n [] hbound, List.append_nil]

theorem char_toNat_digit (n : Nat) (h : n < 10) : (Char.ofNat (48 + n)).toNat = 48 + n := by
  interval_cases n <;> decide

theorem natDigsSpec_digits (n : Nat) : ∀ c ∈ natDigsSpec n, isDigitCh c = true := by
  induction n using Nat.strong_induction_on with
  | _ n ih =>
    by_cases h10 : n < 10
    · rw [natDigsSpec, if_pos h10]
      intro c hc
      simp at hc
      subst hc
      simp [isDigitCh, char_toNat_digit n h10]
      omega
    · rw [natDigsSpec, if_neg h10]
      intro c hc
      rw [List.mem_append] at hc
      rcases hc with hc | hc
      · exact ih (n / 10) (Nat.div_lt_self (by omega) (by omega)) c hc
      · simp at hc
        subst hc
        have hm : n % 10 < 10 := Nat.mod_lt _ (by omega)
        simp [isDigitCh, char_toNat_digit _ hm]
        omega

theorem natDigsSpec_ne_nil (n : Nat) : natDigsSpec n ≠ [] := by
  by_cases h10 : n < 10
  · rw [natDigsSpec, if_pos h10]; simp
  · rw [natDigsSpec, if_neg h10]; simp

theorem digitsVal_append_one (l : List Char) (c : Char) :
    digitsVal (l ++ [c]) = 10 * digitsVal l + (c.toNat - 48) := by
  simp [digitsVal, List.foldl_append]

theorem digitsVal_spec (n : Nat) : digitsVal (natDigsSpec n) = n := by
  induction n using Nat.strong_induction_on with
  | _ n ih =>
    by_cases h10 : n < 10
    · rw [natDigsSpec, if_pos h10]
      simp [digitsVal, char_toNat_digit n h10]
    · rw [natDigsSpec, if_neg h10]
      rw [digitsVal_append_one, ih (n / 10) (Nat.div_lt_self (by omega) (by omega))]
      have hm : n % 10 < 10 := Nat.mod_lt _ (by omega)
      rw [char_toNat_digit _ hm]
      omega

/-- Whether the input starts with a decimal digit. -/
def headIsDigit : List Char → Bool
  | [] => false
  | c :: _ => isDigitCh c

/-- The input does not continue a number literal (no digit, dot, or
exponent marker at its head). -/
def numBoundary : List Char → Bool
  | [] => true
  | c :: _ => !isDigitCh c && !(c = '.') && !(c = 'e') && !(c = 'E')

theorem takeDigits_append (ds rest : List Char) (hds : ∀ c ∈ ds, isDigitCh c = true)
    (hrest : headIsDigit rest = false) : takeDigits (ds ++ rest) = (ds, rest) := by
  induction ds with
  | nil =>
    simp only [List.nil_append]
    cases rest with
    | nil => rfl
    | cons c cs =>
      simp only [headIsDigit] at hrest
      simp [takeDigits, hrest]
  | cons d ds ih =>
    have hd : isDigitCh d = true := hds d (by simp)
    simp only [List.cons_append, takeDigits, hd, if_true, List.append_eq]
    rw [ih (fun c hc => hds c (by simp [hc]))]

theorem numBoundary_cons (c : Char) (cs : List Char) (h : numBoundary (c :: cs) = true) :
    isDigitCh c = false ∧ ¬c = '.' ∧ ¬c = 'e' ∧ ¬c = 'E' := by
  simp [numBoundary] at h
  obtain ⟨⟨⟨h1, h2⟩, h3⟩, h4⟩ := h
  exact ⟨h1, h2, h3, h4⟩

theorem numBoundary_head_not_digit (rest : List Char) (h : numBoundary rest = true) :
    headIsDigit rest = false := by
  cases rest with
  | nil => rfl
  | cons c cs =>
    simp [headIsDigit, (numBoundary_cons c cs h).1]

theorem parseFrac_boundary (m : Nat) (rest : List Char) (h : numBoundary rest = true) :
    parseFrac m rest = some (m, 0, rest) := by
  cases rest with
  | nil => rfl
  | cons c cs =>
    simp [parseFrac, (numBoundary_cons c cs h).2.1]

theorem parseExp_boundary (rest : List Char) (h : numBoundary rest = true) :
    parseExp rest = some (0, rest) := by
  cases rest with
  | nil => rfl
  | cons c cs =>
    obtain ⟨-, -, he, hE⟩ := numBoundary_cons c cs h
    have : (c = 'e' || c = 'E') = false := by simp [he, hE]
    simp [parseExp, this]

theorem parseNumber_pos (n : Nat) (rest : List Char) (h : numBoundary rest = true) :
    parseNumber (natDigsSpec n ++ rest) = some (.num (n : Int) 0, rest) := by
  obtain ⟨d, ds, hde⟩ : ∃ d ds, natDigsSpec n = d :: ds := by
    cases he : natDigsSpec n with
    | nil => exact absurd he (natDigsSpec_ne_nil n)
    | cons d ds => exact ⟨d, ds, rfl⟩
  have hdig : ∀ c ∈ d :: ds, isDigitCh c = true := by
    rw [← hde]; exact natDigsSpec_digits n
  have hd : isDigitCh d = true := hdig d (by simp)
  have hdne : ¬(d = '-') := by
    intro he; rw [he] at hd; exact absurd hd (by decide)
  have htd : takeDigits ((d :: ds) ++ rest) = (d :: ds, rest) :=
    takeDigits_append _ _ hdig (numBoundary_head_not_digit rest h)
  have hval : digitsVal (d :: ds) = n := by rw [← hde]; exact digitsVal_spec n
  rw [hde, List.cons_append, parseNumber.eq_def]
  simp only [if_neg hdne, ← List.cons_append, htd, hval, parseFrac_boundary n rest h,
    parseExp_boundary rest h]
  simp [hdne]

theorem parseNumber_neg (n : Nat) (rest : List Char) (h : numBoundary rest = true) :
    parseNumber ('-' :: (natDigsSpec n ++ rest)) = some (.num (-(n : Int)) 0, rest) := by
  obtain ⟨d, ds, hde⟩ : ∃ d ds, natDigsSpec n = d :: ds := by
    cases he : natDigsSpec n with
    | nil => exact absurd he (natDigsSpec_ne_nil n)
    | cons d ds => exact ⟨d, ds, rfl⟩
  have hdig : ∀ c ∈ d :: ds, isDigitCh c = true := by
    rw [← hde]; exact natDigsSpec_digits n
  have htd : takeDigits ((d :: ds) ++ rest) = (d :: ds, rest) :=
    takeDigits_append _ _ hdig (numBoundary_head_not_digit rest h)
  have hval : digitsVal (d :: ds) = n := by rw [← hde]; exact digitsVal_spec n
  rw [hde, List.cons_append, parseNumber.eq_def]
  simp only [eq_self_iff_true, if_true, ← List.cons_append, htd, hval,
    parseFrac_boundary n rest h, parseExp_boundary rest h]
  simp

theorem encInt_eq (i : Int) :
    encInt i = if i < 0 then '-' :: natDigsSpec (-i).toNat else natDigsSpec i.toNat := by
  rw [encInt]
  split <;> rw [natDigs_eq]

theorem parseNumber_encInt (i : Int) (rest : List Char) (h : numBoundary rest = true) :
    parseNumber (encInt i ++ rest) = some (.num i 0, rest) := by
  rw [encInt_eq]
  by_cases hneg : i < 0
  · rw [if_pos hneg, List.cons_append, parseNumber_neg _ rest h]
    have : -((-i).toNat : Int) = i := by omega
    rw [this]
  · rw [if_neg hneg, parseNumber_pos _ rest h]
    have : ((i.toNat : Nat) : Int) = i := by omega
    rw [this]

theorem num_head_shape (i : Int) :
    ∃ c tl, encInt i = c :: tl ∧ (c = '-' ∨ isDigitCh c = true) := by
  rw [encInt_eq]
  by_cases hneg : i < 0
  · exact ⟨'-', _, by rw [if_pos hneg], Or.inl rfl⟩
  · rw [if_neg hneg]
    obtain ⟨d, ds, hde⟩ : ∃ d ds, natDigsSpec i.toNat = d :: ds := by
      cases he : natDigsSpec i.toNat with
      | nil => exact absurd he (natDigsSpec_ne_nil _)
      | cons d ds => exact ⟨d, ds, rfl⟩
    refine ⟨d, ds, hde, Or.inr ?_⟩
    have := natDigsSpec_digits i.toNat
    rw [hde] at this
    exact this d (by simp)

theorem num_head_not_special (c : Char) (h : c = '-' ∨ isDigitCh c = true) :
    ¬c = quoteChar ∧ ¬c = lbrackChar ∧ ¬c = lbraceChar ∧ ¬c = 't' ∧ ¬c = 'f' ∧ ¬c = 'n' := by
  rcases h with h | h
  · subst h
    exact ⟨by decide, by decide, by decide, by decide, by decide, by decide⟩
  · refine ⟨?_, ?_, ?_, ?_, ?_, ?_⟩ <;>
      (intro he; rw [he] at h; exact absurd h (by decide))

theorem parseValue_enc_int (fuel : Nat) (i : Int) (rest : List Char)
    (h : numBoundary rest = true) :
    parseValue (fuel + 1) (encInt i ++ rest) = some (.num i 0, rest) := by
  obtain ⟨c, tl, hce, hshape⟩ := num_head_shape i
  obtain ⟨h1, h2, h3, h4, h5, h6⟩ := num_head_not_special c hshape
  rw [hce, List.cons_append, show fuel + 1 = Nat.succ fuel from rfl, parseValue.eq_3]
  simp only [if_neg h1, if_neg h2, if_neg h3, if_neg h4, if_neg h5, if_neg h6]
  rw [← List.cons_append, ← hce]
  exact parseNumber_encInt i rest h

theorem parseValue_enc_bool (fuel : Nat) (b : Bool) (rest : List Char) :
    parseValue (fuel + 1) (encBool b ++ rest) = some (.bool b, rest) := by
  cases b with
  | true =>
    show parseValue (Nat.succ fuel) ('t' :: 'r' :: 'u' :: 'e' :: rest) = _
    rw [parseValue.eq_3]
    simp only [show ¬('t' = quoteChar) from by decide, show ¬('t' = lbrackChar) from by decide,
      show ¬('t' = lbraceChar) from by decide, if_false, eq_self_iff_true, if_true]
    simp [stripWord]
  | false =>
    show parseValue (Nat.succ fuel) ('f' :: 'a' :: 'l' :: 's' :: 'e' :: rest) = _
    rw [parseValue.eq_3]
    simp only [show ¬('f' = quoteChar) from by decide, show ¬('f' = lbrackChar) from by decide,
      show ¬('f' = lbraceChar) from by decide, show ¬('f' = 't') from by decide, if_false,
      eq_self_iff_true, if_true]
    simp [stripWord]

theorem skipWs_quote (l : List Char) : skipWs (quoteChar :: l) = quoteChar :: l :=
  skipWs_cons_not_ws _ _ (by decide)

theorem skipWs_colon (l : List Char) : skipWs (':' :: l) = ':' :: l :=
  skipWs_cons_not_ws _ _ (by decide)

theorem skipWs_comma (l : List Char) : skipWs (',' :: l) = ',' :: l :=
  skipWs_cons_not_ws _ _ (by decide)

theorem skipWs_rbrace (l : List Char) : skipWs (rbraceChar :: l) = rbraceChar :: l :=
  skipWs_cons_not_ws _ _ (by decide)

theorem skipWs_rbrack (l : List Char) : skipWs (rbrackChar :: l) = rbrackChar :: l :=
  skipWs_cons_not_ws _ _ (by decide)

theorem skipWs_lbrace (l : List Char) : skipWs (lbraceChar :: l) = lbraceChar :: l :=
  skipWs_cons_not_ws _ _ (by decide)

theorem digit_not_ws (c : Char) (h : isDigitCh c = true) : isWsChar c = false := by
  simp only [isWsChar, Bool.or_eq_false_iff]
  refine ⟨⟨⟨?_, ?_⟩, ?_⟩, ?_⟩ <;>
    (simp only [decide_eq_false_iff_not]; intro he; rw [he] at h; exact absurd h (by decide))

theorem skipWs_encInt_app (i : Int) (Y : List Char) :
    skipWs (encInt i ++ Y) = encInt i ++ Y := by
  obtain ⟨c, tl, hce, hshape⟩ := num_head_shape i
  rw [hce, List.cons_append]
  refine skipWs_cons_not_ws _ _ ?_
  rcases hshape with h | h
  · subst h; decide
  · exact digit_not_ws c h

theorem skipWs_encBool_app (b : Bool) (Y : List Char) :
    skipWs (encBool b ++ Y) = encBool b ++ Y := by
  cases b
  · show skipWs ('f' :: ('a' :: 'l' :: 's' :: 'e' :: Y)) = _
    exact skipWs_cons_not_ws _ _ (by decide)
  · show skipWs ('t' :: ('r' :: 'u' :: 'e' :: Y)) = _
    exact skipWs_cons_not_ws _ _ (by decide)

theorem parseValue_enc_str2 (fuel : Nat) (s : String) (rest : List Char) :
    parseValue (fuel + 1) (quoteChar :: (encStrBody s.data ++ (quoteChar :: rest))) =
      some (.str s, rest) := by
  have h := parseValue_enc_str fuel s rest
  rw [encString, List.cons_append, List.append_assoc, List.cons_append] at h
  simpa using h

theorem parseMembers_unfold (fuel : Nat) (key : String) (X : List Char) :
    parseMembers (Nat.succ fuel) (quoteChar :: (encStrBody key.data ++ (quoteChar :: (':' :: X))))
      = (match parseValue fuel (skipWs X) with
        | none => none
        | some (v, r3) =>
          match skipWs r3 with
          | [] => none
          | c3 :: r4 =>
            if c3 = ',' then
              match parseMembers fuel (skipWs r4) with
              | some (fs, rest) => some ((key, v) :: fs, rest)
              | none => none
            else if c3 = rbraceChar then some ([(key, v)], r4)
            else none) := by
  rw [parseMembers.eq_3]
  simp only [eq_self_iff_true, if_true, parseStringBody_enc, stringMkData, skipWs_colon]

theorem parseValue_enc_win (fuel : Nat) (w : GnomeWin) (rest : List Char) :
    parseValue (fuel + 5) (encWin w ++ rest) = some (gwinToJVal w, rest) := by
  rw [encWin]
  simp only [encString, List.cons_append, List.append_assoc, List.nil_append]
  rw [show fuel + 5 = Nat.succ (fuel + 4) from rfl, parseValue.eq_3]
  simp only [show ¬(lbraceChar = quoteChar) from by decide,
    show ¬(lbraceChar = lbrackChar) from by decide, if_false, eq_self_iff_true, if_true,
    skipWs_quote, show ¬(quoteChar = rbraceChar) from by decide]
  rw [show fuel + 4 = Nat.succ (fuel + 3) from rfl, parseMembers_unfold (fuel + 3)]
  rw [skipWs_quote, show fuel + 3 = (fuel + 2) + 1 from rfl, parseValue_enc_str2]
  simp only [skipWs_comma, eq_self_iff_true, if_true, skipWs_quote]
  rw [show (fuel + 2) + 1 = Nat.succ (fuel + 2) from rfl, parseMembers_unfold (fuel + 2)]
  rw [skipWs_encInt_app, show fuel + 2 = (fuel + 1) + 1 from rfl,
    parseValue_enc_int (fuel + 1) w.id (',' :: _) rfl]
  simp only [skipWs_comma, eq_self_iff_true, if_true, skipWs_quote]
  rw [show (fuel + 1) + 1 = Nat.succ (fuel + 1) from rfl, parseMembers_unfold (fuel + 1)]
  rw [skipWs_encBool_app, parseValue_enc_bool fuel w.focus]
  simp only [skipWs_rbrace, show ¬(rbraceChar = ',') from by decide, if_false,
    eq_self_iff_true, if_true]
  rfl

theorem skipWs_lbrack (l : List Char) : skipWs (lbrackChar :: l) = lbrackChar :: l :=
  skipWs_cons_not_ws _ _ (by decide)

theorem skipWs_encWin_app (w : GnomeWin) (Y : List Char) :
    skipWs (encWin w ++ Y) = encWin w ++ Y := by
  rw [encWin, List.cons_append]
  exact skipWs_cons_not_ws _ _ (by decide)

theorem encWinList_head (w : GnomeWin) (ws : List GnomeWin) :
    ∃ T, encWinList (w :: ws) = lbraceChar :: T := by
  cases ws with
  | nil => exact ⟨_, rfl⟩
  | cons w2 ws' =>
    rw [show encWinList (w :: w2 :: ws') = encWin w ++ ',' :: encWinList (w2 :: ws') from rfl,
      encWin, List.cons_append]
    exact ⟨_, rfl⟩

theorem parseElems_wins (ws : List GnomeWin) :
    ∀ (fuel : Nat) (w : GnomeWin) (rest : List Char),
      parseElems (fuel + ws.length + 6) (encWinList (w :: ws) ++ rbrackChar :: rest)
        = some ((w :: ws).map gwinToJVal, rest) := by
  induction ws with
  | nil =>
    intro fuel w rest
    rw [show encWinList [w] = encWin w from rfl,
      show fuel + List.length ([] : List GnomeWin) + 6 = Nat.succ (fuel + 5) from by simp,
      parseElems.eq_2, skipWs_encWin_app, parseValue_enc_win]
    simp only [skipWs_rbrack, show ¬(rbrackChar = ',') from by decide, if_false,
      eq_self_iff_true, if_true]
    rfl
  | cons w2 ws' ih =>
    intro fuel w rest
    rw [show encWinList (w :: w2 :: ws') = encWin w ++ ',' :: encWinList (w2 :: ws') from rfl]
    simp only [List.append_assoc, List.cons_append]
    have hlen : fuel + (w2 :: ws').length + 6 = Nat.succ (fuel + ws'.length + 6) := by
      simp [List.length_cons]
      omega
    rw [hlen, parseElems.eq_2, skipWs_encWin_app]
    have hv : parseValue (fuel + ws'.length + 6)
        (encWin w ++ (',' :: (encWinList (w2 :: ws') ++ rbrackChar :: rest)))
        = some (gwinToJVal w, ',' :: (encWinList (w2 :: ws') ++ rbrackChar :: rest)) := by
      rw [show fuel + ws'.length + 6 = (fuel + ws'.length + 1) + 5 from by omega]
      exact parseValue_enc_win _ _ _
    rw [hv]
    simp only [skipWs_comma, eq_self_iff_true, if_true]
    rw [ih fuel w2 rest]
    rfl

theorem parseValue_enc_arrWins (fuel : Nat) (w : GnomeWin) (ws : List GnomeWin)
    (rest : List Char) :
    parseValue (fuel + ws.length + 7) (lbrackChar :: (encWinList (w :: ws) ++ rbrackChar :: rest))
      = some (.arr ((w :: ws).map gwinToJVal), rest) := by
  obtain ⟨T, hT⟩ := encWinList_head w ws
  rw [show fuel + ws.length + 7 = Nat.succ (fuel + ws.length + 6) from by omega,
    parseValue.eq_3]
  simp only [show ¬(lbrackChar = quoteChar) from by decide, if_false, eq_self_iff_true, if_true]
  rw [hT, List.cons_append, skipWs_lbrace]
  simp only [show ¬(lbraceChar = rbrackChar) from by decide, if_false]
  rw [← List.cons_append, ← hT, parseElems_wins ws fuel w rest]

theorem encWin_len_pos (w : GnomeWin) : 1 ≤ (encWin w).length := by
  rw [encWin]
  simp

theorem encWinList_len (w : GnomeWin) (ws : List GnomeWin) :
    ws.length + 1 ≤ (encWinList (w :: ws)).length := by
  induction ws generalizing w with
  | nil => simpa using encWin_len_pos w
  | cons w2 ws' ih =>
    rw [show encWinList (w :: w2 :: ws') = encWin w ++ ',' :: encWinList (w2 :: ws') from rfl]
    have h1 := encWin_len_pos w
    have h2 := ih w2
    simp only [List.length_append, List.length_cons]
    omega

theorem jsonParse_query_raw (ws : List GnomeWin) (title : String) :
    jsonParse (gnome_query_raw ws title)
      = some (.arr ((gnomeFilter ws title).map gwinToJVal)) := by
  rw [gnome_query_raw]
  cases hfs : gnomeFilter ws title with
  | nil => rfl
  | cons w ws' =>
    rw [jsonParse]
    have hdata : (String.mk (lbrackChar :: (encWinList (w :: ws') ++ [rbrackChar]))).data
        = lbrackChar :: (encWinList (w :: ws') ++ [rbrackChar]) := rfl
    have hlen : (String.mk (lbrackChar :: (encWinList (w :: ws') ++ [rbrackChar]))).length
        = (encWinList (w :: ws')).length + 2 := by
      show (lbrackChar :: (encWinList (w :: ws') ++ [rbrackChar])).length = _
      simp
    rw [hdata, hlen, skipWs_lbrack]
    have hb := encWinList_len w ws'
    obtain ⟨f, hf⟩ : ∃ f, 2 * ((encWinList (w :: ws')).length + 2) + 4 = f + ws'.length + 7 :=
      ⟨2 * ((encWinList (w :: ws')).length + 2) + 4 - (ws'.length + 7), by omega⟩
    rw [hf, show (encWinList (w :: ws') ++ [rbrackChar]) = encWinList (w :: ws') ++ rbrackChar :: [] from rfl,
      parseValue_enc_arrWins]
    rfl

/-- The full pipeline of the GNOME window query: the `JSON.stringify` text the
shell returns decodes (via `decode_eval_json`, one `json.loads` round) back
to the filtered window list. -/
theorem gnome_query_decode (ws : List GnomeWin) (title : String) :
    decode_eval_json (.str (gnome_query_raw ws title))
      = .arr ((gnomeFilter ws title).map gwinToJVal) := by
  show decode_loop _ = _
  exact decode_loop_eq_done _ _ (jsonParse_query_raw ws title)
    (fun t ht => JVal.noConfusion ht)

@[simp] theorem sbind_ok {α β : Type} (es : List Effect) (a : α) (f : α → Step β) :
    sbind (es, Except.ok a) f = (es ++ (f a).1, (f a).2) := rfl

@[simp] theorem sbind_err {α β : Type} (es : List Effect) (e : PyErr) (f : α → Step β) :
    sbind (es, Except.error e) f = (es, Except.error e) := rfl

@[simp] theorem sfor_nil {α : Type} (f : α → Step Unit) : sfor [] f = sret () := rfl

@[simp] theorem sfor_cons {α : Type} (x : α) (xs : List α) (f : α → Step Unit) :
    sfor (x :: xs) f = sbind (f x) (fun _ => sfor xs f) := rfl

/-- C2: `press_keys` emits all key-down events in the listed order followed
by all key-up events in reverse listed order; for `[A, B]` the argv order is
exactly `A:1, B:1, B:0, A:0`; the whole list goes to the injector in one
`ydotool key` invocation. -/
theorem press_keys_down_then_reverse_up :
    (∀ keys : List String,
      press_keys_args keys =
        (keys.map fun k => k ++ ":1") ++ ((keys.map fun k => k ++ ":0").reverse)) ∧
    (∀ A B : String,
      press_keys_args [A, B] = [A ++ ":1", B ++ ":1", B ++ ":0", A ++ ":0"]) ∧
    (∀ (env : Env) (keys : List String),
      Effect.runProc ("ydotool" :: "key" :: press_keys_args keys) ∈ (press_keys env keys).1) := by
  refine ⟨?_, ?_, ?_⟩
  · intro keys
    rw [press_keys_args, List.map_reverse]
  · intro A B
    rfl
  · intro env keys
    rw [press_keys]
    cases hr : env.runResult ("ydotool" :: "key" :: press_keys_args keys) with
    | notFound => simp [run, hr, semit]
    | res out err code =>
      by_cases hc : code ≠ 0
      · by_cases he : err ≠ ""
        · simp [run, hr, hc, he, semit]
        · simp [run, hr, hc, he, semit]
      · simp [run, hr, hc, semit]

/-- The effects of the `i`-th step of the accept sequence, under a clean
runner. -/
def seq_step_effects (env : Env) (sec : String) (j : Nat) : List Effect :=
  match env.cfg.seq sec j with
  | some s =>
    if s = "<sleep>" then
      [.logMsg ("Sleep sequence: " ++ sec), .logMsg "Sleeping", .sleepEff]
    else
      [.logMsg ("Pressing key sequence: " ++ sec ++ ": " ++ s),
        .logMsg "Pressing down keys, up keys",
        .runProc ("ydotool" :: "key" :: press_keys_args (pySplit s ','))]
  | none => []

/-- C10: the key-sequence player scans `accept_sequence_0` .. `accept_sequence_9`
in increasing index order and stops at the first missing index: with a clean
runner the invocation is exactly the steps of the `takeWhile` prefix of
`range 10`, so at most 10 steps execute and a step after a gap never runs. -/
theorem press_key_sequence_scan (env : Env) (sec : String)
    (hrun : ∀ args, env.runResult args = .res "" "" 0) :
    press_key_sequence env sec =
      ((((List.range 10).takeWhile fun i => (env.cfg.seq sec i).isSome).map
        (seq_step_effects env sec)).flatten, .ok ())
    ∧ (((List.range 10).takeWhile fun i => (env.cfg.seq sec i).isSome).length ≤ 10) := by
  constructor
  · have hgo : ∀ (rem i : Nat),
        press_key_sequence_go env sec i rem =
          ((((List.range' i rem).takeWhile fun j => (env.cfg.seq sec j).isSome).map
            (seq_step_effects env sec)).flatten, .ok ()) := by
      intro rem
      induction rem with
      | zero => intro i; rfl
      | succ rem ih =>
        intro i
        rw [show List.range' i (rem + 1) = i :: List.range' (i + 1) rem from rfl,
          List.takeWhile_cons]
        rw [press_key_sequence_go]
        cases hs : env.cfg.seq sec i with
        | none => simp [hs, sret]
        | some s =>
          simp only [hs, Option.isSome_some, if_true, List.map_cons, List.flatten_cons]
          by_cases hsl : s = "<sleep>"
          · rw [if_pos hsl, semit, sbind_ok, ih (i + 1)]
            simp [seq_step_effects, hs, hsl]
          · rw [if_neg hsl, semit, sbind_ok, press_keys, semit, sbind_ok, run,
              hrun ("ydotool" :: "key" :: press_keys_args (pySplit s ','))]
            simp only [show ¬((0 : Int) ≠ 0) from by omega, if_false]
            simp [sbind, sret, seq_step_effects, hs, hsl, ih (i + 1)]
    rw [press_key_sequence, hgo 10 0, ← List.range_eq_range']
  · have h := List.Sublist.length_le
      (List.takeWhile_sublist (l := List.range 10) (fun i => (env.cfg.seq sec i).isSome))
    simpa using h

/-- Concrete environment for the C10 witness: a sequence with a defined step
at index 0, a gap at index 1, and another defined step at index 2 (which must
never run). -/
def envC10 : Env where
  desktop := "KDE"
  cfg :=
    { verbose := false
      socketPath := "/sock"
      dialogTitles := fun _ => "T"
      seq := fun sec i =>
        if sec = "kde" && i == 0 then some "28"
        else if sec = "kde" && i == 2 then some "15" else none }
  runResult := fun _ => .res "" "" 0
  gnomeSaver := none
  kdeDbusImport := true
  kdeSaver := some false
  evalCheck := .reply true
  evalCheckData := "2"
  evalQuery := fun _ => .reply true
  evalActivate := fun _ => .reply true
  gnomeWindows := []
  socketExists := true
  spawnOk := true
  spawnPolls := 0

/-- Witness for C10: at the concrete environment the player executes exactly
the single step before the gap — the step defined at index 2 never runs. -/
theorem press_key_sequence_scan_witness :
    press_key_sequence envC10 "kde" =
      ([.logMsg "Pressing key sequence: kde: 28", .logMsg "Pressing down keys, up keys",
        .runProc ["ydotool", "key", "28:1", "28:0"]], .ok ())
    ∧ (((List.range 10).takeWhile fun i => (envC10.cfg.seq "kde" i).isSome).length ≤ 10) := by
  have h := press_key_sequence_scan envC10 "kde" (fun _ => rfl)
  exact ⟨h.1.trans (by rfl), h.2⟩

/-- C7: when the injector control socket exists and the `ydotool debug`
liveness probe exits 0, `ensure_ydotoold` returns normally and performs no
daemon launch; running it twice in sequence still performs no daemon launch,
so a second call has zero daemon-launch side effects. -/
theorem ensure_ydotoold_idempotent (env : Env) (out err : String)
    (hsock : env.socketExists = true)
    (hdebug : env.runResult ["ydotool", "debug"] = .res out err 0) :
    (ensure_ydotoold env).2 = .ok ()
    ∧ (∀ e ∈ (ensure_ydotoold env).1, isSpawn e = false)
    ∧ (∀ e ∈ (sbind (ensure_ydotoold env) fun _ => ensure_ydotoold env).1,
        isSpawn e = false) := by
  have h1 : ensure_ydotoold env =
      ([.logMsg ("Found yDoTool daemon, socket: " ++ env.cfg.socketPath),
        .runProc ["ydotool", "debug"]], .ok ()) := by
    rw [ensure_ydotoold, if_pos hsock, semit, sbind_ok, run, hdebug]
    simp [sret]
  rw [h1]
  refine ⟨rfl, ?_, ?_⟩ <;> simp [isSpawn]

/-- Concrete environment for the C7 witness: healthy socket and probe. -/
def envC7 : Env where
  desktop := "KDE"
  cfg :=
    { verbose := false
      socketPath := "/sock"
      dialogTitles := fun _ => "T"
      seq := fun _ _ => none }
  runResult := fun _ => .res "" "" 0
  gnomeSaver := none
  kdeDbusImport := true
  kdeSaver := some false
  evalCheck := .reply true
  evalCheckData := "2"
  evalQuery := fun _ => .reply true
  evalActivate := fun _ => .reply true
  gnomeWindows := []
  socketExists := true
  spawnOk := true
  spawnPolls := 0

/-- Witness for C7 at the concrete healthy environment. -/
theorem ensure_ydotoold_idempotent_witness :
    (ensure_ydotoold envC7).2 = .ok ()
    ∧ (∀ e ∈ (ensure_ydotoold envC7).1, isSpawn e = false)
    ∧ (∀ e ∈ (sbind (ensure_ydotoold envC7) fun _ => ensure_ydotoold envC7).1,
        isSpawn e = false) :=
  ensure_ydotoold_idempotent envC7 "" "" rfl rfl

/-- Counterexample for C8: the value `"KDE GNOME"` contains the substring
`KDE`, yet resolution selects the GnomeShell variant (GNOME is tested
first), so "every value containing the second substring selects KdeShell"
fails. -/
theorem resolve_desktop_overlap_counterexample :
    containsSubstr "KDE GNOME" "KDE" = true ∧
    resolve_desktop "KDE GNOME" = .ok .gnome ∧
    resolve_desktop "KDE GNOME" ≠ .ok .kde := by
  refine ⟨rfl, rfl, ?_⟩
  intro h
  rw [show resolve_desktop "KDE GNOME" = .ok .gnome from rfl] at h
  exact Variant.noConfusion (Except.ok.inj h)

/-- C8 amended: desktop-variant resolution is a pure function of the
`XDG_CURRENT_DESKTOP` value: a value containing `GNOME` selects GnomeShell;
a value containing `KDE` but not `GNOME` selects KdeShell; a value
containing neither fails with a descriptive error (a distinct message for
the empty/unset case); and `accept_dialogs` / `is_desktop_locked` follow
exactly this resolution. -/
theorem resolve_desktop_rule :
    (∀ d : String, containsSubstr d "GNOME" = true → resolve_desktop d = .ok .gnome) ∧
    (∀ d : String, containsSubstr d "KDE" = true → containsSubstr d "GNOME" = false →
      resolve_desktop d = .ok .kde) ∧
    (∀ d : String, containsSubstr d "GNOME" = false → containsSubstr d "KDE" = false →
      ∃ m, resolve_desktop d = .error m) ∧
    (resolve_desktop "" = .error "XDG_CURRENT_DESKTOP environment variable is not set.") ∧
    (∀ (env : Env) (m : String), resolve_desktop env.desktop = .error m →
      accept_dialogs env = ([], .error (.runtimeError m)) ∧
      is_desktop_locked env = ([], .error (.runtimeError m))) ∧
    (∀ env : Env, resolve_desktop env.desktop = .ok .gnome →
      accept_dialogs env = gnome_find_and_accept env ∧
      is_desktop_locked env = is_gnome_screen_locked env) ∧
    (∀ env : Env, resolve_desktop env.desktop = .ok .kde →
      accept_dialogs env = kde_find_and_accept env ∧
      is_desktop_locked env = is_kde_screen_locked env) := by
  refine ⟨?_, ?_, ?_, rfl, ?_, ?_, ?_⟩
  · intro d h
    rw [resolve_desktop, if_pos h]
  · intro d hk hg
    rw [resolve_desktop, if_neg (by simp [hg]), if_pos hk]
  · intro d hg hk
    rw [resolve_desktop, if_neg (by simp [hg]), if_neg (by simp [hk])]
    by_cases hd : d ≠ ""
    · exact ⟨_, by rw [if_pos hd]⟩
    · exact ⟨_, by rw [if_neg hd]⟩
  · intro env m h
    by_cases h1 : containsSubstr env.desktop "GNOME" = true
    · rw [resolve_desktop, if_pos h1] at h
      exact absurd h (by simp)
    · by_cases h2 : containsSubstr env.desktop "KDE" = true
      · rw [resolve_desktop, if_neg h1, if_pos h2] at h
        exact absurd h (by simp)
      · rw [resolve_desktop, if_neg h1, if_neg h2] at h
        constructor
        · rw [accept_dialogs, if_neg h1, if_neg h2]
          by_cases hd : env.desktop ≠ ""
          · rw [if_pos hd]
            rw [if_pos hd] at h
            simp only [Except.error.injEq] at h
            rw [h]
            rfl
          · rw [if_neg hd]
            rw [if_neg hd] at h
            simp only [Except.error.injEq] at h
            rw [h]
            rfl
        · rw [is_desktop_locked, if_neg h1, if_neg h2]
          by_cases hd : env.desktop ≠ ""
          · rw [if_pos hd]
            rw [if_pos hd] at h
            simp only [Except.error.injEq] at h
            rw [h]
            rfl
          · rw [if_neg hd]
            rw [if_neg hd] at h
            simp only [Except.error.injEq] at h
            rw [h]
            rfl
  · intro env h
    by_cases h1 : containsSubstr env.desktop "GNOME" = true
    · exact ⟨by rw [accept_dialogs, if_pos h1], by rw [is_desktop_locked, if_pos h1]⟩
    · exfalso
      rw [resolve_desktop, if_neg h1] at h
      by_cases h2 : containsSubstr env.desktop "KDE" = true
      · rw [if_pos h2] at h
        exact Variant.noConfusion (Except.ok.inj h)
      · rw [if_neg h2] at h
        by_cases hd : env.desktop ≠ ""
        · rw [if_pos hd] at h; exact Except.noConfusion h
        · rw [if_neg hd] at h; exact Except.noConfusion h
  · intro env h
    by_cases h1 : containsSubstr env.desktop "GNOME" = true
    · exfalso
      rw [resolve_desktop, if_pos h1] at h
      exact Variant.noConfusion (Except.ok.inj h)
    · by_cases h2 : containsSubstr env.desktop "KDE" = true
      · exact ⟨by rw [accept_dialogs, if_neg h1, if_pos h2],
          by rw [is_desktop_locked, if_neg h1, if_pos h2]⟩
      · exfalso
        rw [resolve_desktop, if_neg h1, if_neg h2] at h
        by_cases hd : env.desktop ≠ ""
        · rw [if_pos hd] at h; exact Except.noConfusion h
        · rw [if_neg hd] at h; exact Except.noConfusion h

/-- Concrete environment for the C8 witness (empty desktop value). -/
def envC8 : Env where
  desktop := ""
  cfg :=
    { verbose := false
      socketPath := "/sock"
      dialogTitles := fun _ => "T"
      seq := fun _ _ => none }
  runResult := fun _ => .res "" "" 0
  gnomeSaver := none
  kdeDbusImport := true
  kdeSaver := some false
  evalCheck := .reply true
  evalCheckData := "2"
  evalQuery := fun _ => .reply true
  evalActivate := fun _ => .reply true
  gnomeWindows := []
  socketExists := true
  spawnOk := true
  spawnPolls := 0

/-- Witness for C8 at concrete desktop values, including the unset case. -/
theorem resolve_desktop_rule_witness :
    resolve_desktop "ubuntu:GNOME" = .ok .gnome ∧
    resolve_desktop "KDE" = .ok .kde ∧
    (∃ m, resolve_desktop "xfce" = .error m) ∧
    (accept_dialogs envC8 =
      ([], .error (.runtimeError "XDG_CURRENT_DESKTOP environment variable is not set."))) :=
  ⟨resolve_desktop_rule.1 "ubuntu:GNOME" rfl,
    resolve_desktop_rule.2.1 "KDE" rfl rfl,
    resolve_desktop_rule.2.2.1 "xfce" rfl rfl,
    (resolve_desktop_rule.2.2.2.2.1 envC8
      "XDG_CURRENT_DESKTOP environment variable is not set." rfl).1⟩

/-- Concrete environment for C5: `kdotool search` exits 1 with stderr text. -/
def envC5 : Env where
  desktop := "KDE"
  cfg :=
    { verbose := false
      socketPath := "/sock"
      dialogTitles := fun _ => "Input capture requested"
      seq := fun _ _ => none }
  runResult := fun _ => .res "" "errline1\nerrline2" 1
  gnomeSaver := none
  kdeDbusImport := true
  kdeSaver := some false
  evalCheck := .reply true
  evalCheckData := "2"
  evalQuery := fun _ => .reply true
  evalActivate := fun _ => .reply true
  gnomeWindows := []
  socketExists := true
  spawnOk := true
  spawnPolls := 0

/-- Concrete environment for C5 with the `kdotool` binary missing. -/
def envC5b : Env where
  desktop := "KDE"
  cfg :=
    { verbose := false
      socketPath := "/sock"
      dialogTitles := fun _ => "Input capture requested"
      seq := fun _ _ => none }
  runResult := fun _ => .notFound
  gnomeSaver := none
  kdeDbusImport := true
  kdeSaver := some false
  evalCheck := .reply true
  evalCheckData := "2"
  evalQuery := fun _ => .reply true
  evalActivate := fun _ => .reply true
  gnomeWindows := []
  socketExists := true
  spawnOk := true
  spawnPolls := 0

/-- C5 (code bug): when `kdotool search` exits non-zero with non-empty
stderr, `kde_search_window` does not return the empty window list — it
returns the stderr lines as window ids (because `run` hands back stderr in
the output slot and the caller only truth-tests it); key events then follow
from these bogus ids.  The second half of the claim does hold: a missing
binary exits the process. -/
theorem kde_search_window_stderr_bug :
    (kde_search_window envC5 "Input capture requested").2 = .ok ["errline1", "errline2"] ∧
    (kde_search_window envC5 "Input capture requested").2 ≠ .ok [] ∧
    (kde_search_window envC5b "Input capture requested").2 = .error (.sysExit 1) := by
  refine ⟨rfl, ?_, rfl⟩
  intro h
  rw [show (kde_search_window envC5 "Input capture requested").2
    = .ok ["errline1", "errline2"] from rfl] at h
  exact List.noConfusion (Except.ok.inj h)

/-- C1: in any tick whose lock check returns `True`, no window-discovery
interaction and no injector send occurs: every effect of the tick is neither
a discovery nor a synthetic-input injection. -/
theorem locked_tick_silent (env : Env)
    (h : (is_desktop_locked env).2 = Except.ok true) :
    ∀ e ∈ (tick env).1, isDiscovery e = false ∧ isInjectorSend e = false := by
  rcases hl : is_desktop_locked env with ⟨es, r⟩
  rw [hl] at h
  simp only [] at h
  subst h
  have hes : es = [Effect.screenQuery true] ∨ es = [Effect.screenQuery false] := by
    rw [is_desktop_locked] at hl
    by_cases h1 : containsSubstr env.desktop "GNOME" = true
    · rw [if_pos h1, is_gnome_screen_locked] at hl
      cases hg : env.gnomeSaver with
      | none =>
        rw [hg] at hl
        exact absurd (congrArg Prod.snd hl) (fun hx => Except.noConfusion hx)
      | some out =>
        rw [hg] at hl
        exact Or.inl (congrArg Prod.fst hl).symm
    · rw [if_neg h1] at hl
      by_cases h2 : containsSubstr env.desktop "KDE" = true
      · rw [if_pos h2, is_kde_screen_locked] at hl
        by_cases hi : env.kdeDbusImport = true
        · rw [if_neg (show ¬((!env.kdeDbusImport) = true) from by simp [hi])] at hl
          cases hk : env.kdeSaver with
          | none =>
            rw [hk] at hl
            exact absurd (congrArg Prod.snd hl) (fun hx => Except.noConfusion hx)
          | some b =>
            rw [hk] at hl
            exact Or.inr (congrArg Prod.fst hl).symm
        · rw [if_pos (show (!env.kdeDbusImport) = true from by simp_all)] at hl
          exact absurd (congrArg Prod.snd hl) (fun hx => Except.noConfusion hx)
      · rw [if_neg h2] at hl
        by_cases hd : env.desktop ≠ ""
        · rw [if_pos hd] at hl
          exact absurd (congrArg Prod.snd hl) (fun hx => Except.noConfusion hx)
        · rw [if_neg hd] at hl
          exact absurd (congrArg Prod.snd hl) (fun hx => Except.noConfusion hx)
  rw [tick, hl, sbind_ok]
  simp only [Bool.not_true, if_false]
  intro e he
  simp only [List.mem_append] at he
  rcases he with he | he
  · rcases hes with hes | hes <;>
      (subst hes; simp at he; subst he; exact ⟨rfl, rfl⟩)
  · by_cases hv : is_verbose env = true
    · rw [if_pos hv] at he
      simp [semit, sbind] at he
      rcases he with he | he <;> (subst he; exact ⟨rfl, rfl⟩)
    · rw [if_neg hv] at he
      simp [sret, sbind, semit] at he
      subst he
      exact ⟨rfl, rfl⟩

/-- Concrete environment for the C1 witness: GNOME desktop, screensaver
reports `(true,)` (locked). -/
def envC1 : Env where
  desktop := "GNOME"
  cfg :=
    { verbose := false
      socketPath := "/sock"
      dialogTitles := fun _ => "Capture Input"
      seq := fun _ _ => none }
  runResult := fun _ => .res "" "" 0
  gnomeSaver := some "(true,)"
  kdeDbusImport := true
  kdeSaver := some false
  evalCheck := .reply true
  evalCheckData := "2"
  evalQuery := fun _ => .reply true
  evalActivate := fun _ => .reply true
  gnomeWindows := [⟨some "Capture Input", 1, false⟩]
  socketExists := true
  spawnOk := true
  spawnPolls := 0

/-- Witness for C1: the locked concrete tick consists of the lock query and
the poll sleep only, and the theorem applies to each. -/
theorem locked_tick_silent_witness :
    (tick envC1).1 = [Effect.screenQuery true, Effect.sleepEff] ∧
    (isDiscovery Effect.sleepEff = false ∧ isInjectorSend Effect.sleepEff = false) :=
  ⟨rfl, locked_tick_silent envC1 rfl Effect.sleepEff
    (by rw [show (tick envC1).1 = [Effect.screenQuery true, Effect.sleepEff] from rfl]
        exact List.Mem.tail _ (List.Mem.head _))⟩

/-- Concrete environment for the C4 counterexample: the GNOME screensaver
query raises (a transient DBus failure — a recoverable, tick-transient
category per the spec's taxonomy). -/
def envC4 : Env where
  desktop := "GNOME"
  cfg :=
    { verbose := false
      socketPath := "/sock"
      dialogTitles := fun _ => "Capture Input"
      seq := fun _ _ => none }
  runResult := fun _ => .res "" "" 0
  gnomeSaver := none
  kdeDbusImport := true
  kdeSaver := some false
  evalCheck := .reply true
  evalCheckData := "2"
  evalQuery := fun _ => .reply true
  evalActivate := fun _ => .reply true
  gnomeWindows := []
  socketExists := true
  spawnOk := true
  spawnPolls := 0

/-- Counterexample for C4: a recoverable lock-check failure in the first
tick is not caught at the tick boundary — the `RuntimeError` escapes the
loop and the second tick never runs (its lock query never appears in the
trace). -/
theorem tick_failure_escapes_counterexample :
    run_ticks [envC4, envC4] =
      ([Effect.screenQuery true],
        Except.error (PyErr.runtimeError "Could not check GNOME lock screen")) := rfl

/-- A second concrete environment for C4: the lock check succeeds (screen
unlocked), but discovery fails — the capability-check DBus call fails, so
`gnome_find_and_accept` raises inside `accept_dialogs`. -/
def envC4b : Env where
  desktop := "GNOME"
  cfg :=
    { verbose := false
      socketPath := "/sock"
      dialogTitles := fun _ => "Capture Input"
      seq := fun _ _ => none }
  runResult := fun _ => .res "" "" 0
  gnomeSaver := some "(false,)"
  kdeDbusImport := true
  kdeSaver := some false
  evalCheck := .callFailed
  evalCheckData := "2"
  evalQuery := fun _ => .reply true
  evalActivate := fun _ => .reply true
  gnomeWindows := []
  socketExists := true
  spawnOk := true
  spawnPolls := 0

/-- C4 amended: tick-transient failures are not caught at the tick boundary.
Any exception raised inside a tick — in the lock check, in discovery, or
while acting — propagates out of `main`'s loop and terminates it, dropping
all remaining ticks; only subprocess non-zero exits inside `run` are
non-raising (the tick continues past them). -/
theorem tick_errors_propagate :
    (∀ (env : Env) (rest : List Env) (e : PyErr),
      (tick env).2 = Except.error e →
      run_ticks (env :: rest) = ((tick env).1, Except.error e)) ∧
    (∀ (env : Env) (args : List String) (out err : String) (code : Int),
      env.runResult args = .res out err code → ∃ v, (run env args).2 = Except.ok v) := by
  constructor
  · intro env rest e h
    rcases ht : tick env with ⟨es, r⟩
    rw [ht] at h
    simp only [] at h
    subst h
    rw [run_ticks, sfor_cons, ht, sbind_err]
  · intro env args out err code h
    rw [run, h]
    simp only []
    by_cases hc : code ≠ 0
    · by_cases he : err ≠ ""
      · rw [if_pos hc, if_pos he]; exact ⟨_, rfl⟩
      · rw [if_pos hc, if_neg he]; exact ⟨_, rfl⟩
    · rw [if_neg hc]; exact ⟨_, rfl⟩

/-- Witness for C4's amended statement: a lock-check failure and a
discovery failure each escape the loop with the remaining tick dropped,
while a non-zero subprocess exit does not raise. -/
theorem tick_errors_propagate_witness :
    run_ticks [envC4] =
      ([Effect.screenQuery true],
        Except.error (PyErr.runtimeError "Could not check GNOME lock screen")) ∧
    run_ticks [envC4b, envC4b] =
      ([Effect.screenQuery true, Effect.shellEval .checkEval,
        Effect.logMsg "DBus call failed",
        Effect.logMsg "Error checking GNOME shell eval",
        Effect.logMsg "Hint: Enable GNOME unsafe mode to use shell eval"],
        Except.error (PyErr.runtimeError
          "Unable to use shell eval, check GNOME unsafe mode is enabled.")) ∧
    (∃ v, (run envC4 ["kdotool", "search", "--name", "T"]).2 = Except.ok v) :=
  ⟨(tick_errors_propagate.1 envC4 [] _ rfl).trans (by rfl),
    (tick_errors_propagate.1 envC4b [envC4b] _ rfl).trans (by rfl),
    tick_errors_propagate.2 envC4 ["kdotool", "search", "--name", "T"] "" "" 0 rfl⟩

theorem mem_sbind {α β : Type} (x : Step α) (f : α → Step β) (e : Effect)
    (he : e ∈ (sbind x f).1) : e ∈ x.1 ∨ ∃ a, e ∈ (f a).1 := by
  rcases x with ⟨es, r⟩
  cases r with
  | error err => exact Or.inl he
  | ok a =>
    rw [sbind_ok] at he
    rcases List.mem_append.mp he with h | h
    · exact Or.inl h
    · exact Or.inr ⟨a, h⟩

theorem run_no_activate (env : Env) (args : List String) :
    ∀ e ∈ (run env args).1, isActivateEff e = false := by
  rw [run]
  cases env.runResult args with
  | notFound => simp [isActivateEff]
  | res out err code =>
    by_cases hc : code ≠ 0
    · by_cases he : err ≠ ""
      · simp [hc, he, isActivateEff]
      · simp [hc, he, isActivateEff]
    · simp [hc, isActivateEff]

theorem press_keys_no_activate (env : Env) (keys : List String) :
    ∀ e ∈ (press_keys env keys).1, isActivateEff e = false := by
  intro e he
  rw [press_keys] at he
  rcases mem_sbind _ _ _ he with h | ⟨a, h⟩
  · simp [semit] at h
    subst h
    rfl
  · rcases mem_sbind _ _ _ h with h2 | ⟨b, h2⟩
    · exact run_no_activate env _ e h2
    · simp [sret] at h2

theorem press_seq_go_no_activate (env : Env) (sec : String) :
    ∀ (rem i : Nat), ∀ e ∈ (press_key_sequence_go env sec i rem).1,
      isActivateEff e = false := by
  intro rem
  induction rem with
  | zero => intro i e he; simp [press_key_sequence_go, sret] at he
  | succ rem ih =>
    intro i e he
    rw [press_key_sequence_go] at he
    cases hs : env.cfg.seq sec i with
    | none => rw [hs] at he; simp [sret] at he
    | some s =>
      rw [hs] at he
      simp only [] at he
      by_cases hsl : s = "<sleep>"
      · rw [if_pos hsl] at he
        rcases mem_sbind _ _ _ he with h | ⟨a, h⟩
        · simp [semit] at h
          rcases h with h | h | h <;> (subst h; rfl)
        · exact ih (i + 1) e h
      · rw [if_neg hsl] at he
        rcases mem_sbind _ _ _ he with h | ⟨a, h⟩
        · simp [semit] at h
          subst h
          rfl
        · rcases mem_sbind _ _ _ h with h2 | ⟨b, h2⟩
          · exact press_keys_no_activate env _ e h2
          · exact ih (i + 1) e h2

theorem press_seq_no_activate (env : Env) (sec : String) :
    ∀ e ∈ (press_key_sequence env sec).1, isActivateEff e = false :=
  press_seq_go_no_activate env sec 10 0

theorem press_seq_filter_activate (env : Env) (sec : String) :
    (press_key_sequence env sec).1.filter isActivateEff = [] := by
  rw [List.filter_eq_nil_iff]
  intro e he
  simp [press_seq_no_activate env sec e he]

theorem gnome_activate_filter (env : Env) (idv : JVal) :
    (gnome_activate_window env idv).1.filter isActivateEff
      = [.shellEval (.activateWindow idv)] := by
  rw [gnome_activate_window, gnome_shell_eval_activate]
  cases hact : env.evalActivate idv with
  | notFound =>
    rw [gnome_shell_eval_out]
    simp [serr, isActivateEff]
  | callFailed =>
    rw [gnome_shell_eval_out]
    simp [serr, isActivateEff]
  | reply ok =>
    rw [gnome_shell_eval_out]
    cases ok with
    | true => simp [sret, isActivateEff]
    | false => simp [serr, isActivateEff]

theorem gnome_accept_title_first_match (env : Env) (title : String)
    (hq : env.evalQuery title = .reply true) :
    (∀ w ∈ gnomeFilter env.gnomeWindows title,
      ∃ t, w.title = some t ∧ t ≠ "" ∧ containsSubstr t title = true) ∧
    ((gnome_accept_title env title).1.countP isActivateEff ≤ 1) ∧
    (gnomeFilter env.gnomeWindows title = [] →
      ∀ e ∈ (gnome_accept_title env title).1,
        isInjectorSend e = false ∧ isActivateEff e = false) ∧
    (∀ (w : GnomeWin) (rest : List GnomeWin),
      gnomeFilter env.gnomeWindows title = w :: rest →
      (gnome_accept_title env title).1.filter isActivateEff =
        (if w.focus then [] else [.shellEval (.activateWindow (.num w.id 0))])) := by
  have hquery : gnome_shell_eval_query env title =
      ([.shellEval (.queryWindows title)],
        Except.ok (EvalRet.pair true
          (.arr ((gnomeFilter env.gnomeWindows title).map gwinToJVal)))) := by
    rw [gnome_shell_eval_query, hq]
    simp only [gnome_shell_eval_out]
    rw [gnome_query_decode]
  have hfilt : ∀ w ∈ gnomeFilter env.gnomeWindows title,
      ∃ t, w.title = some t ∧ t ≠ "" ∧ containsSubstr t title = true := by
    intro w hw
    rw [gnomeFilter, List.mem_filter] at hw
    obtain ⟨-, hp⟩ := hw
    cases ht : w.title with
    | none => rw [ht] at hp; simp at hp
    | some t =>
      rw [ht] at hp
      simp only [Bool.and_eq_true, decide_eq_true_eq] at hp
      exact ⟨t, rfl, hp.1, hp.2⟩
  have hnil : gnomeFilter env.gnomeWindows title = [] →
      gnome_accept_title env title = ([.shellEval (.queryWindows title)], .ok ()) := by
    intro hfs
    rw [gnome_accept_title, hquery, hfs, sbind_ok]
    simp [pyTruthy, sret]
  have hlt : ∀ (tv idv fv : JVal),
      lookupField [("title", tv), ("id", idv), ("focus", fv)] "title" = some tv :=
    fun _ _ _ => rfl
  have hli : ∀ (tv idv fv : JVal),
      lookupField [("title", tv), ("id", idv), ("focus", fv)] "id" = some idv :=
    fun _ _ _ => rfl
  have hlf : ∀ (tv idv fv : JVal),
      lookupField [("title", tv), ("id", idv), ("focus", fv)] "focus" = some fv :=
    fun _ _ _ => rfl
  have hmain : ∀ (w : GnomeWin) (rest : List GnomeWin),
      gnomeFilter env.gnomeWindows title = w :: rest →
      (gnome_accept_title env title).1.filter isActivateEff =
        (if w.focus then [] else [.shellEval (.activateWindow (.num w.id 0))]) := by
    intro w rest hfs
    rcases hps : press_key_sequence env "gnome" with ⟨sfx, sr⟩
    have hsf : sfx.filter isActivateEff = [] := by
      have h := press_seq_filter_activate env "gnome"
      rw [hps] at h
      exact h
    rw [gnome_accept_title, hquery, hfs, sbind_ok]
    cases hfoc : w.focus with
    | true =>
      simp [gwinToJVal, hfoc, hlt, hli, hlf, pyTruthy, sret, semit, sleep_before_sequence,
        hps, List.filter_append, isActivateEff, hsf, sbind]
    | false =>
      rcases hga : gnome_activate_window env (.num w.id 0) with ⟨aes, ar⟩
      have haf : aes.filter isActivateEff = [.shellEval (.activateWindow (.num w.id 0))] := by
        have h := gnome_activate_filter env (.num w.id 0)
        rw [hga] at h
        exact h
      cases ar with
      | error e =>
        simp [gwinToJVal, hfoc, hlt, hli, hlf, pyTruthy, sret, semit, sleep_before_sequence,
          hps, hga, List.filter_append, isActivateEff, hsf, haf, sbind]
      | ok a =>
        simp [gwinToJVal, hfoc, hlt, hli, hlf, pyTruthy, sret, semit, sleep_before_sequence,
          hps, hga, List.filter_append, isActivateEff, hsf, haf, sbind]
  refine ⟨hfilt, ?_, ?_, hmain⟩
  · cases hfs : gnomeFilter env.gnomeWindows title with
    | nil =>
      rw [hnil hfs]
      simp [List.countP_eq_length_filter, isActivateEff]
    | cons w rest =>
      rw [List.countP_eq_length_filter, hmain w rest hfs]
      cases w.focus <;> simp
  · intro hfs e he
    rw [hnil hfs] at he
    simp at he
    subst he
    exact ⟨rfl, rfl⟩

/-- Concrete environment for C6: two configured dialog titles, each matching
a different (unfocused) window, healthy eval channel. -/
def envC6 : Env where
  desktop := "GNOME"
  cfg :=
    { verbose := false
      socketPath := "/sock"
      dialogTitles := fun _ => "Capture Input,Remote Desktop"
      seq := fun _ i => if i == 0 then some "28" else none }
  runResult := fun _ => .res "" "" 0
  gnomeSaver := some "(false,)"
  kdeDbusImport := true
  kdeSaver := some false
  evalCheck := .reply true
  evalCheckData := "2"
  evalQuery := fun _ => .reply true
  evalActivate := fun _ => .reply true
  gnomeWindows := [⟨some "Capture Input", 1, false⟩, ⟨some "Remote Desktop", 2, false⟩]
  socketExists := true
  spawnOk := true
  spawnPolls := 0

/-- Counterexample for C6: in one tick with two configured titles matching
two different windows, the GNOME backend performs two activations and two
injector sends — not at most one activation-plus-sequence per tick. -/
theorem gnome_two_accepts_per_tick_counterexample :
    (gnome_find_and_accept envC6).1.countP isActivateEff = 2 ∧
    (gnome_find_and_accept envC6).1.countP isInjectorSend = 2 := by
  have hdec2 : decode_eval_json (.str "2") = .num 2 0 :=
    decode_loop_eq_done "2" (.num 2 0) rfl (fun t ht => JVal.noConfusion ht)
  have hcheck : gnome_check_shell_eval envC6 = ([.shellEval .checkEval], .ok true) := by
    rw [gnome_check_shell_eval, gnome_shell_eval_check,
      show envC6.evalCheck = .reply true from rfl]
    simp only [gnome_shell_eval_out, show envC6.evalCheckData = "2" from rfl, hdec2]
    rw [sbind_ok]
    simp [pyEqInt, sret]
  have hq1 : gnome_shell_eval_query envC6 "Capture Input" =
      ([.shellEval (.queryWindows "Capture Input")],
        .ok (.pair true (.arr [gwinToJVal ⟨some "Capture Input", 1, false⟩]))) := by
    rw [gnome_shell_eval_query, show envC6.evalQuery "Capture Input" = .reply true from rfl]
    simp only [gnome_shell_eval_out]
    rw [gnome_query_decode]
    rfl
  have hq2 : gnome_shell_eval_query envC6 "Remote Desktop" =
      ([.shellEval (.queryWindows "Remote Desktop")],
        .ok (.pair true (.arr [gwinToJVal ⟨some "Remote Desktop", 2, false⟩]))) := by
    rw [gnome_shell_eval_query, show envC6.evalQuery "Remote Desktop" = .reply true from rfl]
    simp only [gnome_shell_eval_out]
    rw [gnome_query_decode]
    rfl
  rw [gnome_find_and_accept, hcheck, sbind_ok]
  rw [show pySplit (envC6.cfg.dialogTitles "gnome") ',' =
    ["Capture Input", "Remote Desktop"] from rfl]
  simp only [if_true, sfor_cons, sfor_nil, gnome_accept_title, hq1, hq2]
  constructor <;> rfl

/-- Concrete environment for the C6 amended-claim witness: a single title
matching one unfocused window. -/
def envC6w : Env where
  desktop := "GNOME"
  cfg :=
    { verbose := false
      socketPath := "/sock"
      dialogTitles := fun _ => "Capture Input"
      seq := fun _ i => if i == 0 then some "28" else none }
  runResult := fun _ => .res "" "" 0
  gnomeSaver := some "(false,)"
  kdeDbusImport := true
  kdeSaver := some false
  evalCheck := .reply true
  evalCheckData := "2"
  evalQuery := fun _ => .reply true
  evalActivate := fun _ => .reply true
  gnomeWindows := [⟨some "Capture Input", 1, false⟩]
  socketExists := true
  spawnOk := true
  spawnPolls := 0

/-- Witness for C6's amended claim at a concrete environment: the one
matching unfocused window is activated exactly once. -/
theorem gnome_accept_title_first_match_witness :
    (gnome_accept_title envC6w "Capture Input").1.filter isActivateEff =
      [.shellEval (.activateWindow (.num 1 0))] ∧
    (gnome_accept_title envC6w "Capture Input").1.countP isActivateEff ≤ 1 := by
  have h := gnome_accept_title_first_match envC6w "Capture Input" rfl
  refine ⟨?_, h.2.1⟩
  have h4 := h.2.2.2 ⟨some "Capture Input", 1, false⟩ [] rfl
  simpa using h4

end AcceptPortal
